import Mathlib

/-!
Verification of the narrative document parser and story-graph builder in
`scripts/build_story_content.py`: a shallow embedding of its data model and
string-processing functions, together with theorems settling the spec claims.

Python strings are modelled as `String`/`List Char` (ASCII semantics for the
case/space/digit character classes, which is what all inputs exercised here
use); Python `None` as `Option.none`; a raised exception (`ValueError`,
`IndexError`) as an `Option.none` result of the embedded function; and the
process-wide random source (`random.choice`/`random.shuffle`) as an explicit
stream `g : Nat → Nat` consumed at an explicit counter, with unbounded
retry loops given explicit fuel (exhausted fuel also yields `none`).
-/

set_option linter.unusedVariables false
set_option maxRecDepth 16000

namespace StoryBuild

/-- Python `str` whitespace for ASCII text: space, tab, LF, CR, VT, FF. -/
def isPySpace (c : Char) : Bool :=
  c.toNat == 32 || c.toNat == 9 || c.toNat == 10 || c.toNat == 13 ||
  c.toNat == 11 || c.toNat == 12

/-- The regex class `[A-Za-z]` (and Python `str` letters, for ASCII text). -/
def isAsciiLetter (c : Char) : Bool :=
  (65 ≤ c.toNat && c.toNat ≤ 90) || (97 ≤ c.toNat && c.toNat ≤ 122)

/-- The regex class `[0-9]` / `\d` (ASCII). -/
def isAsciiDigit (c : Char) : Bool :=
  48 ≤ c.toNat && c.toNat ≤ 57

/-- The regex class `[A-Za-z0-9-]` used by `_normalize_path_token`'s fullmatch. -/
def isTokenChar (c : Char) : Bool :=
  isAsciiLetter c || isAsciiDigit c || c.toNat == 45

/-- Characters of a fully sanitized path key: the regex class `[A-Z0-9]`. -/
def isKeyChar (c : Char) : Bool :=
  (65 ≤ c.toNat && c.toNat ≤ 90) || (48 ≤ c.toNat && c.toNat ≤ 57)

/-- Python `str.upper` on one ASCII character. -/
def pyUpperChar (c : Char) : Char :=
  if 97 ≤ c.toNat && c.toNat ≤ 122 then Char.ofNat (c.toNat - 32) else c

/-- Python `str.lower` on one ASCII character. -/
def pyLowerChar (c : Char) : Char :=
  if 65 ≤ c.toNat && c.toNat ≤ 90 then Char.ofNat (c.toNat + 32) else c

/-- Python `str.strip()` (no arguments): drop whitespace at both ends. -/
def pyStrip (l : List Char) : List Char :=
  ((l.dropWhile isPySpace).reverse.dropWhile isPySpace).reverse

/-- `str.strip()` packaged on `String`. -/
def pyStripS (s : String) : String := ⟨pyStrip s.toList⟩

/-- Drop the characters of `strip`'s argument set from both ends
(Python `str.strip(chars)`). -/
def pyStripChars (bad : List Char) (l : List Char) : List Char :=
  ((l.dropWhile bad.contains).reverse.dropWhile bad.contains).reverse

/-- One fuelled step list of Python `str.replace pat rep` (all non-overlapping
occurrences, scanned left to right).  Fuel bounding the length of the string
is enough, since the patterns used in the source are nonempty. -/
def replaceGo (pat rep : List Char) : Nat → List Char → List Char
  | 0, s => s
  | _ + 1, [] => []
  | f + 1, c :: rest =>
    if !pat.isEmpty && pat.isPrefixOf (c :: rest) then
      rep ++ replaceGo pat rep f ((c :: rest).drop pat.length)
    else
      c :: replaceGo pat rep f rest

/-- Python `s.replace(pat, rep)` for nonempty `pat`. -/
def pyReplace (pat rep s : List Char) : List Char := replaceGo pat rep s.length s

/-- Python `str.split()` worker: split on whitespace runs, dropping empties;
`cur` is the reversed word being accumulated. -/
def pySplitGo (cur : List Char) : List Char → List (List Char)
  | [] => if cur.isEmpty then [] else [cur.reverse]
  | c :: rest =>
    if isPySpace c then
      if cur.isEmpty then pySplitGo [] rest else cur.reverse :: pySplitGo [] rest
    else pySplitGo (c :: cur) rest

/-- Python `str.split()` (no separator: split on whitespace, drop empties). -/
def pySplit (l : List Char) : List (List Char) := pySplitGo [] l

/-- `_normalize_path_token` from the source.  Returns `none` for the
`IndexError` that `token.split()[0]` raises when the token reduces to a
nonempty all-hyphen string (hyphen removal empties it, so `split()` is `[]`). -/
def normalize_path_token (token : List Char) : Option (List Char) :=
  let t0 := pyStrip token
  let t1 := pyReplace "Super-Path".toList [] t0
  let t2 := pyReplace "super-path".toList [] t1
  let t3 := pyReplace "Path".toList [] t2
  let t4 := pyReplace "path".toList [] t3
  let t5 := pyStrip t4
  if t5.isEmpty then some t5
  else
    let t6 := if t5.all isTokenChar then t5.filter (fun c => !(c.toNat == 45)) else t5
    match pySplit t6 with
    | [] => none
    | seg :: _ => some seg

/-- `sanitize_path_key` from the source.  The argument is `Optional[str]`;
the result is `none` exactly when the Python function raises. -/
def sanitize_path_key : Option String → Option String
  | none => some "ROOT"
  | some t =>
    if t = "" then some "ROOT"
    else
      match normalize_path_token t.toList with
      | none => none
      | some primary =>
        let cleaned := (primary.filter (fun c => isAsciiLetter c || isAsciiDigit c)).map pyUpperChar
        some (if cleaned.isEmpty then "ROOT" else ⟨cleaned⟩)

/-- Case-insensitive literal prefix test (the pattern is given lowercase),
used for the `re.IGNORECASE` patterns of the source. -/
def lowerStarts : List Char → List Char → Bool
  | [], _ => true
  | _ :: _, [] => false
  | p :: ps, c :: cs => (pyLowerChar c).toNat == p.toNat && lowerStarts ps cs

/-- `\s*`: drop leading whitespace. -/
def skipSpaces (s : List Char) : List Char := s.dropWhile isPySpace

/-- Greedy `\d+` capture. -/
def takeDigits (s : List Char) : List Char := s.takeWhile isAsciiDigit

/-- Python `int` on a digit string (it cannot fail on a `\d+` capture). -/
def digitsToNat (ds : List Char) : Nat := ds.foldl (fun a c => a * 10 + (c.toNat - 48)) 0

/-- Try `CHAPTER_PATTERN = Ch(?:apter)?\s*(\d+)` (IGNORECASE) anchored at the
start of `s`; the optional group is greedy, so `apter` is tried first. -/
def chapterHere (s : List Char) : Option Nat :=
  if lowerStarts "ch".toList s then
    let rest := s.drop 2
    let tryTail := fun (t : List Char) =>
      let ds := takeDigits (skipSpaces t)
      if ds.isEmpty then none else some (digitsToNat ds)
    match (if lowerStarts "apter".toList rest then tryTail (rest.drop 5) else none) with
    | some n => some n
    | none => tryTail rest
  else none

/-- `re.search`: try the anchored matcher at each position, leftmost wins. -/
def searchWith {α : Type} (f : List Char → Option α) : List Char → Option α
  | [] => f []
  | c :: rest =>
    match f (c :: rest) with
    | some r => some r
    | none => searchWith f rest

/-- `CHAPTER_PATTERN.search`, returning the captured number. -/
def searchChapter (l : List Char) : Option Nat := searchWith chapterHere l

/-- Try `PATH_PATTERN = Path\s+([A-Za-z0-9-]+)` (IGNORECASE) at the start of `s`. -/
def pathHere (s : List Char) : Option (List Char) :=
  if lowerStarts "path".toList s then
    let t := s.drop 4
    let ws := t.takeWhile isPySpace
    if ws.isEmpty then none
    else
      let frag := (t.drop ws.length).takeWhile isTokenChar
      if frag.isEmpty then none else some frag
  else none

/-- Try `CHAPTER_CODE_PATTERN = Chapter\s+\d+\s*:\s*([A-Za-z0-9-]+)` (IGNORECASE)
at the start of `s`. -/
def codeHere (s : List Char) : Option (List Char) :=
  if lowerStarts "chapter".toList s then
    let t := s.drop 7
    let ws := t.takeWhile isPySpace
    if ws.isEmpty then none
    else
      let t2 := t.drop ws.length
      let ds := takeDigits t2
      if ds.isEmpty then none
      else
        match skipSpaces (t2.drop ds.length) with
        | ':' :: t4 =>
          let frag := (skipSpaces t4).takeWhile isTokenChar
          if frag.isEmpty then none else some frag
        | _ => none
  else none

/-- Try the quoted-substring pattern `"([^"]+)"` at the start of `s`. -/
def quoteHere (s : List Char) : Option (List Char) :=
  match s with
  | '"' :: rest =>
    let content := rest.takeWhile (fun c => !(c.toNat == 34))
    if content.isEmpty then none
    else
      match rest.drop content.length with
      | '"' :: _ => some content
      | _ => none
  | _ => none

/-- The path-fragment search of `extract_target`: `PATH_PATTERN`, else
`CHAPTER_CODE_PATTERN`, else the first quoted substring. -/
def searchPathFragment (l : List Char) : Option String :=
  match searchWith pathHere l with
  | some f => some ⟨f⟩
  | none =>
    match searchWith codeHere l with
    | some f => some ⟨f⟩
    | none =>
      match searchWith quoteHere l with
      | some f => some ⟨f⟩
      | none => none

/-- `extract_target` from the source: parse the target chapter/path key out of
one line.  `none` models the `IndexError` that `sanitize_path_key` can raise
on a pathological fragment; otherwise the pair `(chapter, path_key)` is
returned, the second component always being a proper string. -/
def extract_target (line : String) : Option (Option Nat × String) :=
  let l := line.toList
  let chapter := searchChapter l
  let frag := searchPathFragment l
  match sanitize_path_key frag with
  | none => none
  | some k => some (chapter, if frag.isNone then "ROOT" else k)

/-- Words ignored when generating puzzles (`STOPWORDS` in the source;
Python uses a set, only membership matters). -/
def STOPWORDS : List String :=
  ["the", "and", "to", "of", "a", "in", "is", "it",
   "you", "that", "he", "was", "for", "on", "are", "with",
   "as", "i", "his", "they", "be", "at", "one", "have",
   "this", "from", "or", "had", "by", "word", "but", "what",
   "some", "we", "can", "out", "other", "were", "all", "there",
   "when", "up", "use", "your", "how", "said", "an", "each",
   "she", "which", "do", "their", "time", "if", "will", "way",
   "about", "many", "then", "them", "would", "write", "like", "so",
   "these", "her", "long", "make", "thing", "see", "him", "two",
   "has", "look", "more", "day", "could", "go", "come", "did",
   "my", "sound", "no", "most", "number", "who", "over", "know",
   "water", "than", "call", "first", "people", "may", "down", "side",
   "been", "now", "find", "any", "new", "work", "part", "take",
   "get", "place", "made", "live", "where", "after", "back", "little",
   "only", "round", "man", "year", "came", "show", "every", "good",
   "me", "give", "our", "under", "name", "very", "through", "just",
   "form", "sentence", "great", "think", "say", "help", "low", "line",
   "differ", "turn", "cause", "much", "mean", "before", "move", "right",
   "boy", "old", "too", "same", "tell", "does", "set", "three",
   "want", "air", "well", "also", "play", "small", "end", "put",
   "home", "read", "hand", "port", "large", "spell", "add", "even",
   "land", "here", "must", "big", "high", "such", "follow", "act",
   "why", "ask", "men", "change", "went", "light", "kind", "off",
   "need", "house", "picture", "try", "us", "again", "animal", "point",
   "mother", "world", "near", "build", "self", "earth", "father", "head",
   "stand", "own", "page", "should", "country", "found", "answer", "school",
   "grow", "study", "still", "learn", "plant", "cover", "food", "sun",
   "four", "between", "state", "keep", "eye", "never", "last", "let",
   "thought", "city", "tree", "cross", "farm", "hard", "start", "might",
   "story", "saw", "far", "sea", "draw", "left", "late", "run",
   "don\x27t", "while", "press", "close", "night", "real", "life", "few",
   "north", "open", "seem", "together", "next", "white", "children", "begin",
   "got", "walk", "example", "ease", "paper", "group", "always", "music",
   "those", "both", "mark", "often", "letter", "until", "mile", "river",
   "car", "feet", "care", "second", "book", "carry", "took", "science",
   "eat", "room", "friend", "began", "idea", "fish", "mountain", "stop",
   "once", "base", "hear", "horse", "cut", "sure", "watch", "color",
   "face", "wood", "main", "enough", "plain", "girl", "usual", "young",
   "ready", "above", "ever", "red", "list", "though", "feel", "talk",
   "bird", "soon", "body", "dog", "family", "direct", "pose", "leave",
   "song", "measure", "door", "product", "black", "short", "numeral", "class",
   "wind", "question", "happen", "complete", "ship", "area", "half", "rock",
   "order", "fire", "south", "problem", "piece", "told", "knew", "pass",
   "since", "top", "whole", "king", "space", "heard", "best", "hour",
   "better", "true", "during", "hundred", "five", "remember", "step", "early",
   "hold", "west", "ground", "interest", "reach", "fast", "verb", "sing",
   "listen", "six", "table", "travel", "less", "morning", "ten", "simple",
   "several", "vowel", "toward", "war", "lay", "against", "pattern", "slow",
   "center", "love", "person", "money", "serve", "appear", "road", "map",
   "rain", "rule", "govern", "pull", "cold", "notice", "voice", "unit",
   "power", "town", "fine", "certain", "fly", "fall", "lead", "cry",
   "dark", "machine", "note", "wait", "plan", "figure", "star", "box",
   "noun", "field", "rest", "correct", "able", "pound", "done", "beauty",
   "drive", "stood", "contain", "front", "teach", "week", "final", "gave",
   "green", "oh", "quick", "develop", "ocean", "warm", "free", "minute",
   "strong", "special", "mind", "behind", "clear", "tail", "produce", "fact",
   "street", "inch", "multiply", "nothing", "course", "stay", "wheel", "full",
   "force", "blue", "object", "decide", "surface", "deep", "moon", "island",
   "foot", "system", "busy", "test", "record", "boat", "common", "gold",
   "possible", "plane", "stead", "dry", "wonder", "laugh", "thousand", "ago",
   "ran", "check", "game", "shape", "equate", "hot", "miss", "brought",
   "heat", "snow", "tire", "bring", "yes", "distant", "fill", "east",
   "paint", "language", "among", "grand", "ball", "yet", "wave", "drop",
   "heart", "am", "present", "heavy", "dance", "engine", "position", "arm",
   "wide", "sail", "material", "size", "vary", "settle", "speak", "weight",
   "general", "ice", "matter", "circle", "pair", "include", "divide", "syllable",
   "felt", "perhaps", "pick", "sudden", "count", "square", "reason", "length",
   "represent", "art", "subject", "region", "energy", "hunt", "probable", "bed",
   "brother", "egg", "ride", "cell", "believe", "fraction", "forest", "sit",
   "race", "window", "store", "summer", "train", "sleep", "prove", "lone",
   "leg", "exercise", "wall", "catch", "mount", "wish", "sky", "board",
   "joy", "winter", "sat", "written", "wild", "instrument", "kept", "glass",
   "grass", "cow", "job", "edge", "sign", "visit", "past", "soft",
   "fun", "bright", "gas", "weather", "month", "million", "bear", "finish",
   "happy", "hope", "flower", "clothe", "strange", "gone", "jump", "baby",
   "eight", "village", "meet", "root", "buy", "raise", "solve", "metal",
   "whether", "push", "seven", "paragraph", "third", "shall", "held", "hair",
   "describe", "cook", "floor", "either", "result", "burn", "hill", "safe",
   "cat", "century", "consider", "type", "law", "bit", "coast", "copy",
   "phrase", "silent", "tall", "sand", "soil", "roll", "temperature", "finger",
   "industry", "value", "fight", "lie", "beat", "excite", "natural", "view",
   "sense", "ear", "else", "quite", "broke", "case", "middle", "kill",
   "son", "lake", "moment", "scale", "loud", "spring", "observe", "child",
   "straight", "consonant", "nation", "dictionary", "milk", "speed", "method", "organ",
   "pay", "age", "section", "dress", "cloud", "surprise", "quiet", "stone",
   "tiny", "climb", "cool", "design", "poor", "lot", "experiment", "bottom",
   "key", "iron", "single", "stick", "flat", "twenty", "skin", "smile",
   "crease", "hole", "trade", "melody", "trip", "office", "receive", "row",
   "mouth", "exact", "symbol", "die", "least", "trouble", "shout", "except",
   "wrote", "seed", "tone", "join", "suggest", "clean", "break", "lady",
   "yard", "rise", "bad", "blow", "oil", "blood", "touch", "grew",
   "cent", "mix", "team", "wire", "cost", "lost", "brown", "wear",
   "garden", "equal", "sent", "choose", "fell", "fit", "flow", "fair",
   "bank", "collect", "save", "control", "decimal", "gentle", "woman", "captain",
   "practice", "separate", "difficult", "doctor", "please", "protect", "noon", "whose",
   "locate", "ring", "character", "insect", "caught", "period", "indicate", "radio",
   "spoke", "atom", "human", "history", "effect", "electric", "expect", "crop",
   "modern", "element", "hit", "student", "corner", "party", "supply", "bone",
   "rail", "imagine", "provide", "agree", "thus", "capital", "won\x27t", "chair",
   "danger", "fruit", "rich", "thick", "soldier", "process", "operate", "guess",
   "necessary", "sharp", "wing", "create", "neighbor", "wash", "bat", "rather",
   "crowd", "corn", "compare", "poem", "string", "bell", "depend", "meat",
   "rub", "tube", "famous", "dollar", "stream", "fear", "sight", "thin",
   "triangle", "planet", "hurry", "chief", "colony", "clock", "mine", "tie",
   "enter", "major", "fresh", "search", "send", "yellow", "gun", "allow",
   "print", "dead", "spot", "desert", "suit", "current", "lift", "rose",
   "continue", "block", "chart", "hat", "sell", "success", "company", "subtract",
   "event", "particular", "deal", "swim", "term", "opposite", "wife", "shoe",
   "shoulder", "spread", "arrange", "camp", "invent", "cotton", "born", "determine",
   "quart", "nine", "truck", "noise", "level", "chance", "gather", "shop",
   "stretch", "throw", "shine", "property", "column", "molecule", "select", "wrong",
   "gray", "repeat", "require", "broad", "prepare", "salt", "nose", "plural",
   "anger", "claim", "continent", "oxygen", "sugar", "death", "pretty", "skill",
   "women", "season", "solution", "magnet", "silver", "thank", "branch", "match",
   "suffix", "especially", "fig", "afraid", "huge", "sister", "steel", "discuss",
   "forward", "similar", "guide", "experience", "score", "apple", "bought", "led",
   "pitch", "coat", "mass", "card", "band", "rope", "slip", "win",
   "dream", "evening", "condition", "feed", "tool", "total", "basic", "smell",
   "valley", "nor", "double", "seat", "arrive", "master", "track", "parent",
   "shore", "division", "sheet", "substance", "favor", "connect", "post", "spend",
   "chord", "fat", "glad", "original", "share", "station", "dad", "bread",
   "charge", "proper", "bar", "offer", "segment", "slave", "duck", "instant",
   "market", "degree", "populate", "chick", "dear", "enemy", "reply", "drink",
   "occur", "support", "speech", "nature", "range", "steam", "motion", "path",
   "liquid", "log", "meant", "quotient", "teeth", "shell", "neck", "bridge"]

/-- The themed filler vocabulary (`FILLER_WORDS`), order and duplicates as in
the source (RAIN, LEAD and COLD appear twice). -/
def FILLER_WORDS : List String :=
  ["FILE", "CASE", "LOCK", "CODE", "TIME", "FACT", "LIES", "TRUE",
   "DARK", "COLD", "RAIN", "CITY", "TOWN", "PORT", "DOCK", "SHIP",
   "PIER", "YARD", "ROOM", "DOOR", "WALL", "HALL", "ROOF", "FLOOR",
   "KEY", "SAFE", "NOTE", "LIST", "PLAN", "MAPS", "GRID", "DATA",
   "INFO", "TAPE", "FILM", "SHOT", "GLOW", "NEON", "LAMP", "BULB",
   "FUSE", "WIRE", "CORD", "LINE", "PATH", "ROAD", "SIGN", "POST",
   "MAIL", "SEAL", "STAMP", "COIN", "CASH", "BILL", "DEBT", "LOAN",
   "BOND", "DEAL", "SALE", "SOLD", "PAID", "COST", "RATE", "RANK",
   "ROLE", "TASK", "JOB", "DUTY", "WORK", "HIRE", "BOSS", "CHIEF",
   "HEAD", "LEAD", "CREW", "GANG", "TEAM", "SIDE", "ALLY", "FOE",
   "RIVAL", "HATE", "FEAR", "PAIN", "HURT", "HARM", "KILL", "DEAD",
   "GONE", "LOST", "PAST", "LATE", "SOON", "FAST", "SLOW", "WAIT",
   "HALT", "STOP", "EXIT", "BACK", "AWAY", "NEAR", "HERE", "SEEN",
   "SAID", "TOLD", "HELD", "KEPT", "TOOK", "GAVE", "MADE", "BUILT",
   "WORN", "TORN", "BROKE", "BENT", "BLUE", "GREY", "RED", "BLACK",
   "WHITE", "GOLD", "IRON", "STEEL", "LEAD", "ZINC", "DUST", "DIRT",
   "MUD", "SAND", "SMOKE", "HAZE", "FOG", "MIST", "RAIN", "SNOW",
   "WIND", "STORM", "HEAT", "COLD"]

/-- Case-sensitive `str.startswith` test. -/
def startsWithS (pat s : String) : Bool := pat.toList.isPrefixOf s.toList

/-- `line.split(pat, 1)[1].strip()` when `line` starts with `pat`:
the stripped remainder after the prefix. -/
def afterPrefixStrip (pat s : String) : String := ⟨pyStrip (s.toList.drop pat.length)⟩

/-- `sep.join(parts)`. -/
def pyJoin (sep : List Char) : List (List Char) → List Char
  | [] => []
  | [w] => w
  | w :: ws => w ++ sep ++ pyJoin sep ws

/-- A JSON-able Python value, for the serialized dictionaries the script emits. -/
inductive PyVal where
  | null : PyVal
  | str : String → PyVal
  | int : Nat → PyVal
  | list : List PyVal → PyVal
  | dict : List (String × PyVal) → PyVal

/-- `None`-or-string field, serialized (absent optionals become JSON null). -/
def optVal : Option String → PyVal
  | none => PyVal.null
  | some s => PyVal.str s

/-- Key lookup in a serialized dictionary. -/
def dictGet (k : String) : List (String × PyVal) → Option PyVal
  | [] => none
  | (k', v) :: rest => if k' = k then some v else dictGet k rest

/-- The `DecisionOption` dataclass. -/
structure DecisionOption where
  key : String
  title : String
  consequence : Option String := none
  focus : Option String := none
  stats : Option String := none
  outcome : Option String := none
  next_chapter : Option Nat := none
  next_path_key : Option String := none
  raw_lines : List String := []

/-- `DecisionOption.to_dict`: note that every field is always emitted,
absent optionals as null. -/
def DecisionOption.to_dict (o : DecisionOption) : List (String × PyVal) :=
  [("key", PyVal.str o.key),
   ("title", PyVal.str o.title),
   ("consequence", optVal o.consequence),
   ("focus", optVal o.focus),
   ("stats", optVal o.stats),
   ("outcome", optVal o.outcome),
   ("nextChapter", match o.next_chapter with | none => PyVal.null | some n => PyVal.int n),
   ("nextPathKey", optVal o.next_path_key),
   ("details", PyVal.list (o.raw_lines.map PyVal.str))]

/-- The in-flight decision block: `{"intro": [...], "options": [...]}` with
the options still as dataclass values. -/
structure DecisionSection where
  intro : List String := []
  options : List DecisionOption := []

/-- The serialized decision dictionary attached to a subchapter at the end of
`parse_docx_file` (its options are serialized at attach time). -/
def encodeDecision (d : DecisionSection) : List (String × PyVal) :=
  [("intro", PyVal.list (d.intro.map PyVal.str)),
   ("options", PyVal.list (d.options.map (fun o => PyVal.dict o.to_dict)))]

/-- The derived puzzle board dictionary (fixed keys, so it is always truthy). -/
structure Board where
  outlierWords : List String
  grid : List (List String)
  themeName : String
  themeIcon : String
  themeSummary : String

/-- The `Subchapter` dataclass.  `decision` holds the already-serialized
decision dictionary, exactly as the script assigns it. -/
structure Subchapter where
  chapter : Nat
  index : Nat
  path_key : String
  title : String
  bridge_text : Option String
  paragraphs : List String := []
  decision : Option (List (String × PyVal)) := none
  previously : Option String := none
  board : Option Board := none

/-- `CASE_LETTERS = {1: "A", 2: "B", 3: "C"}`. -/
def CASE_LETTERS : List (Nat × String) := [(1, "A"), (2, "B"), (3, "C")]

/-- `f"{n:03d}"`: decimal digits zero-padded to width 3. -/
def pad3 (n : Nat) : String :=
  let s := Nat.repr n
  ⟨List.replicate (3 - s.length) '0' ++ s.toList⟩

/-- `Subchapter.case_number`; `none` models the `ValueError` raised when the
index has no letter mapping. -/
def Subchapter.case_number (s : Subchapter) : Option String :=
  match List.lookup s.index CASE_LETTERS with
  | none => none
  | some letter => some (pad3 s.chapter ++ letter)

/-- Python truthiness of the `previously` field (`None` and `""` are falsy). -/
def truthyStr : Option String → Bool
  | none => false
  | some s => !(s = "")

/-- Python truthiness of the stored decision dictionary (`None` and `{}` falsy). -/
def truthyDict : Option (List (String × PyVal)) → Bool
  | none => false
  | some d => !d.isEmpty

/-- `Subchapter.to_entry`: the five base keys are always present (including a
possibly-null `bridgeText`); `decision`, `previously` and `board` only when
truthy. -/
def Subchapter.to_entry (s : Subchapter) : List (String × PyVal) :=
  [("chapter", PyVal.int s.chapter),
   ("subchapter", PyVal.int s.index),
   ("title", PyVal.str s.title),
   ("bridgeText", optVal s.bridge_text),
   ("narrative", PyVal.str ⟨pyStrip (pyJoin "\n\n".toList (s.paragraphs.map String.toList))⟩)]
  ++ (match s.decision with
      | some d => if d.isEmpty then [] else [("decision", PyVal.dict d)]
      | none => [])
  ++ (match s.previously with
      | some p => if p = "" then [] else [("previously", PyVal.str p)]
      | none => [])
  ++ (match s.board with
      | some b =>
        [("board", PyVal.dict
          [("outlierWords", PyVal.list (b.outlierWords.map PyVal.str)),
           ("grid", PyVal.list (b.grid.map (fun row => PyVal.list (row.map PyVal.str)))),
           ("outlierTheme", PyVal.dict
             [("name", PyVal.str b.themeName),
              ("icon", PyVal.str b.themeIcon),
              ("summary", PyVal.str b.themeSummary)])])]
      | none => [])

/-- Substring containment (Python `in` on strings). -/
def containsSub (pat : List Char) : List Char → Bool
  | [] => pat.isEmpty
  | c :: rest => pat.isPrefixOf (c :: rest) || containsSub pat rest

/-- `s.split(pat, 1)[0]` when `pat` occurs: the characters before the first
occurrence. -/
def takeBeforeSub (pat : List Char) : List Char → List Char
  | [] => []
  | c :: rest => if pat.isPrefixOf (c :: rest) then [] else c :: takeBeforeSub pat rest

/-- `s.split(pat, 1)[1]` as an option: the characters after the first
occurrence. -/
def afterFirstSub (pat : List Char) : List Char → Option (List Char)
  | [] => none
  | c :: rest =>
    if pat.isPrefixOf (c :: rest) then some ((c :: rest).drop pat.length)
    else afterFirstSub pat rest

/-- Python `str.splitlines` for newline-separated text. -/
def splitLinesGo (cur : List Char) : List Char → List (List Char)
  | [] => if cur.isEmpty then [] else [cur.reverse]
  | c :: rest =>
    if c.toNat == 10 then cur.reverse :: splitLinesGo [] rest
    else splitLinesGo (c :: cur) rest

/-- Match `PREVIOUSLY\s*:?` (IGNORECASE) at the start of `s`, returning the
length of the match. -/
def prevHere (s : List Char) : Option Nat :=
  if lowerStarts "previously".toList s then
    let t := s.drop 10
    let wsn := (t.takeWhile isPySpace).length
    let colon := match t.drop wsn with
      | ':' :: _ => 1
      | _ => 0
    some (10 + wsn + colon)
  else none

/-- `re.search(r"PREVIOUSLY\s*:?", line, IGNORECASE)`, returning `match.end()`. -/
def searchPrevEnd : List Char → Option Nat
  | [] => none
  | c :: rest =>
    match prevHere (c :: rest) with
    | some k => some k
    | none => (searchPrevEnd rest).map (· + 1)

/-- `extract_previously_block` from the source. -/
def extract_previously_block (line : String) : Option String :=
  let l := line.toList
  if !containsSub "PREVIOUSLY".toList (l.map pyUpperChar) then none
  else
    match searchPrevEnd l with
    | none => none
    | some endPos =>
      let remainder := pyStrip (l.drop endPos)
      if remainder.isEmpty then none
      else
        let remainder :=
          if containsSub "\n\n".toList remainder then
            pyStrip (takeBeforeSub "\n\n".toList remainder)
          else remainder
        let segs := splitLinesGo [] remainder
        let normLines := segs.filterMap (fun seg =>
          if (pyStrip seg).isEmpty then none
          else some (pyStripChars ['"', '“', '”'] (pyStrip seg)))
        let normalized := pyStrip (pyJoin ['\n'] normLines)
        if normalized.isEmpty then none else some ⟨normalized⟩

/-- `re.match(r"Chapter\s+(\d+)", line, IGNORECASE)`, returning the number. -/
def chapterHeader (line : String) : Option Nat :=
  let l := line.toList
  if lowerStarts "chapter".toList l then
    let t := l.drop 7
    let ws := t.takeWhile isPySpace
    if ws.isEmpty then none
    else
      let ds := takeDigits (t.drop ws.length)
      if ds.isEmpty then none else some (digitsToNat ds)
  else none

/-- `re.match(r"Subchapter\s+(\d+)\.(\d+)", header, IGNORECASE)`. -/
def subHeader (line : String) : Option (Nat × Nat) :=
  let l := line.toList
  if lowerStarts "subchapter".toList l then
    let t := l.drop 10
    let ws := t.takeWhile isPySpace
    if ws.isEmpty then none
    else
      let t1 := t.drop ws.length
      let d1 := takeDigits t1
      if d1.isEmpty then none
      else
        match t1.drop d1.length with
        | '.' :: t2 =>
          let d2 := takeDigits t2
          if d2.isEmpty then none else some (digitsToNat d1, digitsToNat d2)
        | _ => none
  else none

/-- Subchapter title: the text after the first `" - "`, else the whole
header; stripped at the constructor call. -/
def titleOf (line : String) : String :=
  match afterFirstSub " - ".toList line.toList with
  | some t => ⟨pyStrip t⟩
  | none => ⟨pyStrip line.toList⟩

/-- Bridge text value: `line.split("Bridge Text:", 1)[1].strip().strip('"')`. -/
def bridgeValue (line : String) : String :=
  ⟨pyStripChars ['"'] (pyStrip (line.toList.drop 12))⟩

/-- Option header: replace `$$OPTION` by `OPTION` everywhere, then match
`OPTION\s+([A-Z0-9]+)\s*:\s*(.*)` (case-sensitive); `none` models the
`ValueError` on a malformed option line. -/
def optionHeader (line : String) : Option (String × String) :=
  let l := pyReplace "$$OPTION".toList "OPTION".toList line.toList
  if "OPTION".toList.isPrefixOf l then
    let t := l.drop 6
    let ws := t.takeWhile isPySpace
    if ws.isEmpty then none
    else
      let t1 := t.drop ws.length
      let key := t1.takeWhile isKeyChar
      if key.isEmpty then none
      else
        match skipSpaces (t1.drop key.length) with
        | ':' :: t2 => some (⟨key⟩, ⟨pyStripChars ['"'] (pyStrip t2)⟩)
        | _ => none
  else none

/-- Truthiness of the chapter returned by `extract_target`
(`if chapter and target_path`: `None` and `0` are falsy). -/
def chTruthy : Option Nat → Bool
  | none => false
  | some n => !(n == 0)

/-- The body of the decision-option branch of the parser loop (source lines
417-435): one content line applied to the open option. -/
def applyOptionLine (opt : DecisionOption) (line : String) : Option DecisionOption :=
  if startsWithS "Consequence:" line then
    some {opt with consequence := some (afterPrefixStrip "Consequence:" line)}
  else if startsWithS "Focus:" line then
    some {opt with focus := some (afterPrefixStrip "Focus:" line)}
  else if startsWithS "Stats:" line then
    some {opt with stats := some (afterPrefixStrip "Stats:" line)}
  else if startsWithS "Outcome:" line then
    match extract_target line with
    | none => none
    | some (ch, tp) =>
      let opt1 := {opt with outcome := some (afterPrefixStrip "Outcome:" line)}
      if chTruthy ch ∧ tp ≠ "" ∧ opt1.next_chapter = none then
        some {opt1 with next_chapter := ch, next_path_key := some tp}
      else some opt1
  else
    match extract_target line with
    | none => none
    | some (ch, tp) =>
      if chTruthy ch ∧ tp ≠ "" ∧ opt.next_chapter = none then
        some {opt with next_chapter := ch, next_path_key := some tp}
      else some {opt with raw_lines := opt.raw_lines ++ [line]}

/-- The mutable locals of the parsing loop in `parse_docx_file`. -/
structure PState where
  chapter_number : Option Nat := none
  subchapters : List Subchapter := []
  current_sub : Option Subchapter := none
  current_bridge : Option String := none
  decision_section : Option DecisionSection := none
  current_option : Option DecisionOption := none
  pending_previously : Option String := none

/-- Close the open subchapter, if any (append it to the result list). -/
def closeSub (st : PState) : List Subchapter :=
  match st.current_sub with
  | some s => st.subchapters ++ [s]
  | none => st.subchapters

/-- One iteration of the parsing loop of `parse_docx_file` on one paragraph
line; `none` models a raised `ValueError`/`IndexError`. -/
def parseStep (pk : String) (st : PState) (raw : String) : Option PState :=
  let line := pyStripS raw
  if line = "" then some st
  else
    match extract_previously_block line with
    | some frag => some {st with pending_previously := some frag}
    | none =>
      if (chapterHeader line).isSome ∧ st.chapter_number = none then
        some {st with chapter_number := chapterHeader line}
      else if startsWithS "PUZZLE" line then some st
      else if startsWithS "Bridge Text:" line then
        some {st with current_bridge := some (bridgeValue line)}
      else if startsWithS "Subchapter" line then
        match subHeader line with
        | none => none
        | some (chap, idx) =>
          let attachPrev := truthyStr st.pending_previously
          some {st with
            subchapters := closeSub st,
            current_sub := some
              { chapter := chap, index := idx, path_key := pk, title := titleOf line,
                bridge_text := st.current_bridge,
                previously := if attachPrev then st.pending_previously else none },
            current_bridge := none,
            pending_previously := if attachPrev then none else st.pending_previously}
      else if line = "[DECISION POINT]" ∨ line = "$$DECISION POINT$$" then
        some {st with subchapters := closeSub st, current_sub := none,
                      decision_section := some {}, current_option := none}
      else
        match st.decision_section with
        | some dsec =>
          if startsWithS "OPTION" line ∨ startsWithS "$$OPTION" line then
            match optionHeader line with
            | none => none
            | some kt =>
              let dsec1 := match st.current_option with
                | some o => {dsec with options := dsec.options ++ [o]}
                | none => dsec
              some {st with decision_section := some dsec1,
                            current_option := some {key := kt.1, title := kt.2}}
          else if startsWithS "END CHAPTER" line ∨ startsWithS "[PATH" line then some st
          else
            match st.current_option with
            | none =>
              some {st with decision_section := some {dsec with intro := dsec.intro ++ [line]}}
            | some opt =>
              match applyOptionLine opt line with
              | none => none
              | some opt1 => some {st with current_option := some opt1}
        | none =>
          match st.current_sub with
          | some s =>
            some {st with current_sub := some {s with paragraphs := s.paragraphs ++ [line]}}
          | none => some st

/-- The parsing loop over all paragraph lines. -/
def runLines (pk : String) (st : PState) : List String → Option PState
  | [] => some st
  | l :: rest =>
    match parseStep pk st l with
    | none => none
    | some st1 => runLines pk st1 rest

/-- `extract_keywords` token walk: keep a token iff length ≥ 3, not a
stopword, not seen before; kept tokens are uppercased. -/
def kwWalk : List (List Char) → List (List Char) → List (List Char)
  | [], _ => []
  | t :: rest, seen =>
    if t.length < 3 || STOPWORDS.contains ⟨t⟩ || seen.contains t then kwWalk rest seen
    else t.map pyUpperChar :: kwWalk rest (t :: seen)

/-- Stable insertion into a length-descending sorted list (ties keep the
existing element first). -/
def insertDesc (w : List Char) : List (List Char) → List (List Char)
  | [] => [w]
  | x :: xs => if w.length ≤ x.length then x :: insertDesc w xs else w :: x :: xs

/-- `candidates.sort(key=len, reverse=True)`: Python's sort is stable, and
stable descending-by-length sorting has a unique result, here computed by
insertion. -/
def sortLenDesc (l : List (List Char)) : List (List Char) :=
  l.foldl (fun acc w => insertDesc w acc) []

/-- `extract_keywords` from the source. -/
def extract_keywords (text : String) (count : Nat) : List String :=
  if text = "" then []
  else
    let cleaned := text.toList.map (fun c => if isAsciiLetter c || isPySpace c then c else ' ')
    let lowered := cleaned.map pyLowerChar
    let candidates := kwWalk (pySplit lowered) []
    ((sortLenDesc candidates).take count).map (fun w => ⟨w⟩)

/-- Exchange the elements at positions `i` and `j` (Python
`x[i], x[j] = x[j], x[i]`; out-of-range indices leave the list unchanged,
which the shuffle below never exercises). -/
def swapAt {α : Type} (l : List α) (i j : Nat) : List α :=
  match l.get? i, l.get? j with
  | some a, some b => (l.set i b).set j a
  | _, _ => l

/-- Fisher-Yates loop of `random.shuffle`: for `i = n-1, ..., 1` pick
`j ∈ [0, i]` from the stream and swap; returns the list and the next
stream counter. -/
def shuffleGo {α : Type} (g : Nat → Nat) : Nat → Nat → List α → List α × Nat
  | c, 0, l => (l, c)
  | c, k + 1, l => shuffleGo g (c + 1) k (swapAt l (k + 1) (g c % (k + 2)))

/-- `random.shuffle(l)` driven by the stream `g` starting at counter `c`. -/
def pyShuffle {α : Type} (g : Nat → Nat) (c : Nat) (l : List α) : List α × Nat :=
  shuffleGo g c (l.length - 1) l

/-- The backfill loop shared by `generate_grid` and the outlier padding in
`parse_docx_file`: draw random filler words, skipping ones already present,
until the list holds `count` words.  Adversarial streams can loop forever,
hence the fuel; `none` is fuel exhaustion. -/
def genGridGo (g : Nat → Nat) : Nat → Nat → Nat → List String → Option (List String × Nat)
  | c, 0, count, grid => if count ≤ grid.length then some (grid, c) else none
  | c, f + 1, count, grid =>
    if count ≤ grid.length then some (grid, c)
    else
      let word := FILLER_WORDS.getD (g c % FILLER_WORDS.length) ""
      if grid.contains word then genGridGo g (c + 1) f count grid
      else genGridGo g (c + 1) f count (grid ++ [word])

/-- `generate_grid` from the source: pad the outliers to `count` words with
distinct filler words, then shuffle. -/
def generate_grid (g : Nat → Nat) (c fuel : Nat) (outliers : List String) (count : Nat) :
    Option (List String × Nat) :=
  match genGridGo g c fuel count outliers with
  | none => none
  | some gc => some (pyShuffle g gc.2 gc.1)

/-- `[grid[i:i+4] for i in range(0, 16, 4)]`. -/
def boardRows (grid : List String) : List (List String) :=
  [0, 4, 8, 12].map (fun i => (grid.drop i).take 4)

/-- `"\n".join(sub.paragraphs[:5]) if sub.paragraphs else ""`. -/
def fallbackNarr (paras : List String) : String :=
  if paras.isEmpty then "" else ⟨pyJoin ['\n'] ((paras.take 5).map String.toList)⟩

/-- The puzzle source text: bridge text if truthy, else the first narrative
paragraphs. -/
def sourceTextOf (s : Subchapter) : String :=
  match s.bridge_text with
  | some b => if b = "" then fallbackNarr s.paragraphs else b
  | none => fallbackNarr s.paragraphs

/-- The derived theme name (source lines 477-484). -/
def themeNameOf (bt : Option String) : String :=
  match bt with
  | some b =>
    if b = "" then "INVESTIGATION"
    else
      let words := pySplit b.toList
      let base := if 3 < words.length then pyJoin [' '] (words.take 2) else b.toList
      let upped := base.map pyUpperChar
      let subbed := upped.filter (fun c => (65 ≤ c.toNat && c.toNat ≤ 90) || isPySpace c)
      ⟨(pyStrip subbed).take 15⟩
  | none => "INVESTIGATION"

/-- The theme summary (source line 492): the first 100 characters of the
bridge text with `"..."` appended unconditionally when the bridge text is
truthy, else the fixed placeholder. -/
def summaryOf (bt : Option String) : String :=
  match bt with
  | some b => if b = "" then "Classified Intel" else ⟨b.toList.take 100⟩ ++ "..."
  | none => "Classified Intel"

/-- One iteration of the post-parse loop of `parse_docx_file` (source lines
458-494) on one subchapter: force the chapter number, then derive and attach
the puzzle board. -/
def buildBoard (g : Nat → Nat) (fuel chapterNum c : Nat) (s : Subchapter) :
    Option (Subchapter × Nat) :=
  let s1 := if s.chapter ≠ chapterNum then {s with chapter := chapterNum} else s
  let kw := extract_keywords (sourceTextOf s1) 4
  let outliers0 := if kw.isEmpty then ["CLUE", "LEAD", "PROOF", "TRUTH"] else kw
  match genGridGo g c fuel 4 outliers0 with
  | none => none
  | some oc =>
    match generate_grid g oc.2 fuel oc.1 16 with
    | none => none
    | some gc =>
      let b : Board :=
        { outlierWords := oc.1, grid := boardRows gc.1,
          themeName := themeNameOf s1.bridge_text, themeIcon := "🔎",
          themeSummary := summaryOf s1.bridge_text }
      some ({s1 with board := some b}, gc.2)

/-- The post-parse loop over all subchapters. -/
def annotate (g : Nat → Nat) (fuel chapterNum : Nat) : Nat → List Subchapter → Option (List Subchapter × Nat)
  | c, [] => some ([], c)
  | c, s :: rest =>
    match buildBoard g fuel chapterNum c s with
    | none => none
    | some sc =>
      match annotate g fuel chapterNum sc.2 rest with
      | none => none
      | some lc => some (sc.1 :: lc.1, lc.2)

/-- `subchapters[-1].decision = {...}` guarded by `subchapters` nonempty. -/
def attachToLast (subs : List Subchapter) (d : List (String × PyVal)) : List Subchapter :=
  match subs with
  | [] => []
  | [s] => [{s with decision := some d}]
  | s :: rest => s :: attachToLast rest d

/-- Source lines 442-443: flush the open option into the open decision
section, if both exist. -/
def flushOption (st : PState) : PState :=
  match st.current_option, st.decision_section with
  | some o, some d =>
    {st with decision_section := some {d with options := d.options ++ [o]},
             current_option := none}
  | _, _ => st

/-- End of the parsing loop (source lines 442-496): flush the open option and
subchapter, attach the accumulated decision to the last subchapter if there
is one, fail if no chapter number was found, then run the post-parse loop. -/
def finalizeParse (g : Nat → Nat) (fuel c : Nat) (st : PState) : Option (List Subchapter) :=
  let st1 := flushOption st
  let subs := closeSub st1
  let subs1 := match st1.decision_section with
    | some d => attachToLast subs (encodeDecision d)
    | none => subs
  match st1.chapter_number with
  | none => none
  | some n =>
    match annotate g fuel n c subs1 with
    | none => none
    | some out => some out.1

/-- `parse_docx_file` from the source, over the stripped paragraph lines of
the document, with the derived path key, a random stream `g` with starting
counter `c`, and fuel for the filler backfill loops. -/
def parse_docx_file (g : Nat → Nat) (c fuel : Nat) (pk : String) (doc : List String) :
    Option (List Subchapter) :=
  match runLines pk {} doc with
  | none => none
  | some st => finalizeParse g fuel c st

/-- Concrete run of `buildBoard` used to instantiate the theme-summary
theorem: a subchapter whose bridge text is the 2-character string "Hi". -/
def hiSub : Subchapter :=
  { chapter := 1, index := 1, path_key := "ROOT", title := "T", bridge_text := some "Hi" }

/-- The result of `buildBoard (fun n => n) 40 1 0 hiSub`. -/
def hiBoard : Board :=
  { outlierWords := ["CLUE", "LEAD", "PROOF", "TRUTH"],
    grid := [["CITY", "CASE", "FACT", "LIES"],
             ["TRUTH", "CODE", "RAIN", "TRUE"],
             ["LEAD", "TIME", "LOCK", "FILE"],
             ["PROOF", "CLUE", "COLD", "DARK"]],
    themeName := "HI", themeIcon := "🔎", themeSummary := "Hi..." }

def hiSubResult : Subchapter × Nat := ({ hiSub with board := some hiBoard }, 27)

/-- A plain narrative body line: one that, after stripping, neither opens a
new subchapter nor a decision block (any other content — blank lines,
recap/bridge/chapter-number markers, ordinary prose — is allowed). -/
abbrev bodyOK (l : String) : Prop :=
  startsWithS "Subchapter" (pyStripS l) = false ∧
  pyStripS l ≠ "[DECISION POINT]" ∧ pyStripS l ≠ "$$DECISION POINT$$"

/-- A decision-block content line: one that, after stripping, does not open a
new subchapter. -/
abbrev tailOK (l : String) : Prop :=
  startsWithS "Subchapter" (pyStripS l) = false

/-- Loop invariant while accumulating narrative into an open subchapter:
the chapter number is fixed, the closed subchapters are exactly `acc`, no
decision context is open, and the open subchapter carries no decision. -/
def BodyInv (n : Nat) (acc : List Subchapter) (st : PState) : Prop :=
  st.chapter_number = some n ∧ st.subchapters = acc ∧ st.decision_section = none ∧
  ∃ s, st.current_sub = some s ∧ s.decision = none

/-- Loop invariant inside the trailing decision block: the chapter number is
fixed, the closed subchapters are exactly `[s1, s2]`, no subchapter is open,
and a decision context is open. -/
def TailInv (n : Nat) (s1 s2 : Subchapter) (st : PState) : Prop :=
  st.chapter_number = some n ∧ st.subchapters = [s1, s2] ∧ st.current_sub = none ∧
  st.decision_section.isSome = true

/-- A concrete two-subchapter document with a trailing decision block. -/
def c5doc : List String :=
  ["Chapter 3", "Subchapter 3.1 - One", "Alpha narrative.",
   "Subchapter 3.2 - Two", "Beta narrative.",
   "[DECISION POINT]", "Choose wisely.", "OPTION A: Go north",
   "Outcome: go to Chapter 4, Path FOO"]

/-- The first subchapter parsed from `c5doc` (decision-free). -/
def c5sub1 : Subchapter :=
  { chapter := 3, index := 1, path_key := "ROOT", title := "One", bridge_text := none,
    paragraphs := ["Alpha narrative."], decision := none, previously := none,
    board := some
      { outlierWords := ["NARRATIVE", "ALPHA", "FILE", "CASE"],
        grid := [["ALPHA", "DARK", "RAIN", "FACT"],
                 ["CODE", "TRUE", "CITY", "COLD"],
                 ["CASE", "PORT", "LIES", "TIME"],
                 ["LOCK", "FILE", "NARRATIVE", "TOWN"]],
        themeName := "INVESTIGATION", themeIcon := "🔎",
        themeSummary := "Classified Intel" } }

/-- The second subchapter parsed from `c5doc`, carrying the decision. -/
def c5sub2 : Subchapter :=
  { chapter := 3, index := 2, path_key := "ROOT", title := "Two", bridge_text := none,
    paragraphs := ["Beta narrative."],
    decision := some
      [("intro", PyVal.list [PyVal.str "Choose wisely."]),
       ("options", PyVal.list
         [PyVal.dict
           [("key", PyVal.str "A"),
            ("title", PyVal.str "Go north"),
            ("consequence", PyVal.null),
            ("focus", PyVal.null),
            ("stats", PyVal.null),
            ("outcome", PyVal.str "go to Chapter 4, Path FOO"),
            ("nextChapter", PyVal.int 4),
            ("nextPathKey", PyVal.str "FOO"),
            ("details", PyVal.list [])]])],
    previously := none,
    board := some
      { outlierWords := ["NARRATIVE", "BETA", "MAPS", "GRID"],
        grid := [["NARRATIVE", "BETA", "MAPS", "TAPE"],
                 ["NEON", "SHOT", "BULB", "FUSE"],
                 ["INFO", "GLOW", "DATA", "CORD"],
                 ["FILM", "GRID", "WIRE", "LAMP"]],
        themeName := "INVESTIGATION", themeIcon := "🔎",
        themeSummary := "Classified Intel" } }

/-- The grid produced by `generate_grid` from four concrete outliers with the
identity stream and fuel 30. -/
def c6grid : List String :=
  ["CITY", "CASE", "FACT", "LIES", "DDD", "CODE", "RAIN", "TRUE",
   "BBB", "TIME", "LOCK", "FILE", "CCC", "AAA", "COLD", "DARK"]

example : Subchapter.case_number
    { chapter := 5, index := 2, path_key := "ROOT", title := "", bridge_text := none } =
    some "005B" := by decide
example : Subchapter.case_number
    { chapter := 5, index := 4, path_key := "ROOT", title := "", bridge_text := none } =
    none := by decide

example : extract_target "Outcome: go to Chapter 4, Path FOO" = some (some 4, "FOO") := by decide
example : extract_target "Path FOO" = some (none, "FOO") := by decide
example : extract_target "hello there" = some (none, "ROOT") := by decide
example : extract_target "Chapter 12: A-F" = some (some 12, "AF") := by decide
example : extract_target "Go on to Chapter 9" = some (some 9, "ROOT") := by decide
example : extract_target "read \"The End\" now" = some (none, "THE") := by decide
example : extract_target "Ch7" = some (some 7, "ROOT") := by decide
example : extract_target "Chapter 3 Path -" = none := by decide

example : sanitize_path_key (some "Path A-F-L") = some "AFL" := by decide
example : sanitize_path_key (some "") = some "ROOT" := by decide
example : sanitize_path_key none = some "ROOT" := by decide
example : sanitize_path_key (some "-") = none := by decide
example : sanitize_path_key (some "Super-Path  B") = some "B" := by decide

theorem isPrefixOf_mem {pat l : List Char} (h : pat.isPrefixOf l = true) {c : Char}
    (hc : c ∈ pat) : c ∈ l := by
  induction pat generalizing l with
  | nil => cases hc
  | cons p ps ih =>
    cases l with
    | nil => simp [List.isPrefixOf] at h
    | cons a as =>
      simp only [List.isPrefixOf, Bool.and_eq_true, beq_iff_eq] at h
      rcases List.mem_cons.mp hc with rfl | hc
      · exact h.1 ▸ List.mem_cons_self _ _
      · exact List.mem_cons_of_mem _ (ih h.2 hc)

theorem replaceGo_eq_self {p : Char → Bool} {pat rep : List Char} {fuel : Nat}
    {s : List Char} (hs : ∀ c ∈ s, p c = true) (hpat : ∃ c ∈ pat, p c = false) :
    replaceGo pat rep fuel s = s := by
  induction fuel generalizing s with
  | zero => rfl
  | succ f ih =>
    cases s with
    | nil => rfl
    | cons c rest =>
      have hnp : pat.isPrefixOf (c :: rest) = false := by
        rcases hpat with ⟨d, hd, hdp⟩
        rcases hip : pat.isPrefixOf (c :: rest) with _ | _
        · rfl
        · exact absurd (hs d (isPrefixOf_mem hip hd)) (by simp [hdp])
      simp only [replaceGo, hnp, Bool.and_false, Bool.false_eq_true, if_false]
      exact congrArg (c :: ·) (ih (fun d hd => hs d (List.mem_cons_of_mem _ hd)))

theorem dropWhile_eq_self_of {p : Char → Bool} {s : List Char}
    (hs : ∀ c ∈ s, p c = false) : s.dropWhile p = s := by
  cases s with
  | nil => rfl
  | cons c rest => simp [List.dropWhile, hs c (List.mem_cons_self _ _)]

theorem pyStrip_eq_self {s : List Char} (hs : ∀ c ∈ s, isPySpace c = false) :
    pyStrip s = s := by
  unfold pyStrip
  rw [dropWhile_eq_self_of hs, dropWhile_eq_self_of (fun c hc => hs c (List.mem_reverse.mp hc)),
    List.reverse_reverse]

theorem pySplitGo_no_space {s : List Char} (hs : ∀ c ∈ s, isPySpace c = false) :
    ∀ cur, pySplitGo cur s =
      if (cur.reverse ++ s).isEmpty then [] else [cur.reverse ++ s] := by
  induction s with
  | nil => intro cur; simp [pySplitGo]
  | cons c rest ih =>
    intro cur
    rw [pySplitGo, if_neg (by simp [hs c (List.mem_cons_self _ _)]),
      ih (fun d hd => hs d (List.mem_cons_of_mem _ hd)) (c :: cur)]
    simp

/-- `Char.ofNat` is faithful below the surrogate range. -/
theorem toNat_ofNat_small {m : Nat} (h : m < 55296) : (Char.ofNat m).toNat = m := by
  rw [Char.ofNat, dif_pos (Or.inl h)]
  rfl

theorem keyChar_not_space {c : Char} (h : isKeyChar c = true) : isPySpace c = false := by
  simp only [isKeyChar, Bool.or_eq_true, Bool.and_eq_true, decide_eq_true_eq] at h
  simp only [isPySpace, Bool.or_eq_false_iff, beq_eq_false_iff_ne, ne_eq]
  omega

theorem keyChar_token {c : Char} (h : isKeyChar c = true) : isTokenChar c = true := by
  simp only [isKeyChar, Bool.or_eq_true, Bool.and_eq_true, decide_eq_true_eq] at h
  simp only [isTokenChar, isAsciiLetter, isAsciiDigit, Bool.or_eq_true, Bool.and_eq_true,
    decide_eq_true_eq]
  omega

theorem keyChar_alnum {c : Char} (h : isKeyChar c = true) :
    (isAsciiLetter c || isAsciiDigit c) = true := by
  simp only [isKeyChar, Bool.or_eq_true, Bool.and_eq_true, decide_eq_true_eq] at h
  simp only [isAsciiLetter, isAsciiDigit, Bool.or_eq_true, Bool.and_eq_true, decide_eq_true_eq]
  omega

theorem keyChar_not_hyphen {c : Char} (h : isKeyChar c = true) : (!(c.toNat == 45)) = true := by
  simp only [isKeyChar, Bool.or_eq_true, Bool.and_eq_true, decide_eq_true_eq] at h
  simp only [Bool.not_eq_true', beq_eq_false_iff_ne, ne_eq]
  omega

theorem keyChar_upper_fixed {c : Char} (h : isKeyChar c = true) : pyUpperChar c = c := by
  simp only [isKeyChar, Bool.or_eq_true, Bool.and_eq_true, decide_eq_true_eq] at h
  unfold pyUpperChar
  rw [if_neg]
  simp only [Bool.and_eq_true, decide_eq_true_eq, not_and]
  omega

theorem upper_alnum_key {c : Char} (h : (isAsciiLetter c || isAsciiDigit c) = true) :
    isKeyChar (pyUpperChar c) = true := by
  simp only [isAsciiLetter, isAsciiDigit, Bool.or_eq_true, Bool.and_eq_true,
    decide_eq_true_eq] at h
  unfold pyUpperChar
  split
  · next hc =>
    simp only [Bool.and_eq_true, decide_eq_true_eq] at hc
    have hv : c.toNat - 32 < 55296 := by omega
    simp only [isKeyChar, toNat_ofNat_small hv, Bool.or_eq_true, Bool.and_eq_true,
      decide_eq_true_eq]
    omega
  · next hc =>
    simp only [Bool.and_eq_true, decide_eq_true_eq, not_and] at hc
    simp only [isKeyChar, Bool.or_eq_true, Bool.and_eq_true, decide_eq_true_eq]
    omega

/-- Any string returned by `sanitize_path_key` is nonempty and consists of
`[A-Z0-9]` characters only. -/
theorem sanitizeShape (t : Option String) (y : String) (h : sanitize_path_key t = some y) :
    y.toList ≠ [] ∧ ∀ c ∈ y.toList, isKeyChar c = true := by
  have hroot : ("ROOT" : String).toList ≠ [] ∧
      ∀ c ∈ ("ROOT" : String).toList, isKeyChar c = true := ⟨by decide, by decide⟩
  cases t with
  | none =>
    cases Option.some_inj.mp h
    exact hroot
  | some str =>
    by_cases he : str = ""
    · rw [he, show sanitize_path_key (some "") = some "ROOT" from rfl] at h
      cases Option.some_inj.mp h
      exact hroot
    · simp only [sanitize_path_key] at h
      rw [if_neg he] at h
      cases hn : normalize_path_token str.toList with
      | none => rw [hn] at h; exact absurd h (by simp)
      | some primary =>
        rw [hn] at h
        dsimp only at h
        cases Option.some_inj.mp h
        split
        · exact hroot
        · next hc =>
          constructor
          · intro e
            rw [show (⟨(primary.filter (fun c => isAsciiLetter c || isAsciiDigit c)).map
                pyUpperChar⟩ : String).toList =
                (primary.filter (fun c => isAsciiLetter c || isAsciiDigit c)).map
                pyUpperChar from rfl] at e
            rw [e] at hc
            exact hc rfl
          · intro c hc2
            rcases List.mem_map.mp hc2 with ⟨d, hd, rfl⟩
            exact upper_alnum_key (List.mem_filter.mp hd).2

theorem map_eq_self_of {f : Char → Char} {s : List Char}
    (hs : ∀ c ∈ s, f c = c) : s.map f = s := by
  induction s with
  | nil => rfl
  | cons c rest ih =>
    rw [List.map_cons, hs c (List.mem_cons_self _ _),
      ih (fun d hd => hs d (List.mem_cons_of_mem _ hd))]

/-- `sanitize_path_key` fixes every nonempty all-`[A-Z0-9]` string. -/
theorem sanitizeFixed {y : String} (hne : y.toList ≠ [])
    (hk : ∀ c ∈ y.toList, isKeyChar c = true) : sanitize_path_key (some y) = some y := by
  have hnsp : ∀ c ∈ y.toList, isPySpace c = false := fun c hc => keyChar_not_space (hk c hc)
  have hy : ¬ y = "" := by
    intro e
    rw [e] at hne
    exact hne rfl
  have hieq : y.toList.isEmpty = false := by
    rcases hl : y.toList with _ | _
    · exact absurd hl hne
    · rfl
  have h1 : pyReplace "Super-Path".toList [] y.toList = y.toList :=
    replaceGo_eq_self hk ⟨'u', by decide, by decide⟩
  have h2 : pyReplace "super-path".toList [] y.toList = y.toList :=
    replaceGo_eq_self hk ⟨'s', by decide, by decide⟩
  have h3 : pyReplace "Path".toList [] y.toList = y.toList :=
    replaceGo_eq_self hk ⟨'a', by decide, by decide⟩
  have h4 : pyReplace "path".toList [] y.toList = y.toList :=
    replaceGo_eq_self hk ⟨'p', by decide, by decide⟩
  have hall : y.toList.all isTokenChar = true :=
    List.all_eq_true.mpr (fun c hc => keyChar_token (hk c hc))
  have hfil : y.toList.filter (fun c => !(c.toNat == 45)) = y.toList :=
    List.filter_eq_self.mpr (fun c hc => keyChar_not_hyphen (hk c hc))
  have hfalse : ¬(y.toList.isEmpty = true) := by rw [hieq]; simp
  have hsplit : pySplit y.toList = [y.toList] := by
    unfold pySplit
    rw [pySplitGo_no_space hnsp [], List.reverse_nil, List.nil_append, if_neg hfalse]
  have hnorm : normalize_path_token y.toList = some y.toList := by
    unfold normalize_path_token
    dsimp only
    rw [pyStrip_eq_self hnsp, h1, h2, h3, h4, pyStrip_eq_self hnsp, if_neg hfalse,
      if_pos hall, hfil, hsplit]
  have hfil2 : y.toList.filter (fun c => isAsciiLetter c || isAsciiDigit c) = y.toList :=
    List.filter_eq_self.mpr (fun c hc => keyChar_alnum (hk c hc))
  have hmap : y.toList.map pyUpperChar = y.toList :=
    map_eq_self_of (fun c hc => keyChar_upper_fixed (hk c hc))
  unfold sanitize_path_key
  dsimp only
  rw [if_neg hy, hnorm]
  dsimp only
  rw [hfil2, hmap, if_neg hfalse]
  rfl

/-- C8: path-key normalization is idempotent: composing `sanitize_path_key`
with itself agrees with a single application on every string (including the
inputs on which the Python function raises, where both sides raise). -/
theorem sanitize_path_key_idempotent (x : String) :
    (sanitize_path_key (some x)).bind (fun y => sanitize_path_key (some y)) =
      sanitize_path_key (some x) := by
  cases h : sanitize_path_key (some x) with
  | none => rfl
  | some y =>
    have hy := sanitizeShape (some x) y h
    simpa using sanitizeFixed hy.1 hy.2

/-- C10 counterexample: `sanitize_path_key "-"` raises an `IndexError`
(`"".split()[0]` after hyphen removal) instead of returning a string, so it
does not return a nonempty uppercase alphanumeric key for every input. -/
theorem sanitize_path_key_raises_on_hyphen : sanitize_path_key (some "-") = none := rfl

/-- C10 amended: whenever `sanitize_path_key` returns (it raises on inputs
that normalize to a nonempty all-hyphen token, such as "-"), the result is a
nonempty string matching `^[A-Z0-9]+$`; `None` and the empty string collapse
to "ROOT". -/
theorem sanitize_path_key_image (t : Option String) (y : String)
    (h : sanitize_path_key t = some y) :
    y ≠ "" ∧ (∀ c ∈ y.toList, isKeyChar c = true) ∧
      sanitize_path_key none = some "ROOT" ∧ sanitize_path_key (some "") = some "ROOT" := by
  have hy := sanitizeShape t y h
  refine ⟨?_, hy.2, rfl, rfl⟩
  intro e
  rw [e] at hy
  exact hy.1 rfl

/-- Witness for `sanitize_path_key_image` at the input "abc". -/
theorem sanitize_path_key_image_witness :
    ("ABC" : String) ≠ "" ∧ (∀ c ∈ ("ABC" : String).toList, isKeyChar c = true) ∧
      sanitize_path_key none = some "ROOT" ∧ sanitize_path_key (some "") = some "ROOT" :=
  sanitize_path_key_image (some "abc") "ABC" rfl

theorem set_get_self {α : Type} : ∀ (l : List α) (n : Nat) (h : n < l.length),
    l.set n (l.get ⟨n, h⟩) = l
  | _ :: _, 0, _ => rfl
  | d :: t, n + 1, h =>
    congrArg (d :: ·) (set_get_self t n (Nat.lt_of_succ_lt_succ h))

theorem get_cons_set_perm {α : Type} (t : List α) (k : Nat) (hk : k < t.length) (c : α) :
    List.Perm (t.get ⟨k, hk⟩ :: t.set k c) (c :: t) := by
  induction t generalizing k with
  | nil => exact absurd hk (Nat.not_lt_zero k)
  | cons d t ih =>
    cases k with
    | zero => exact List.Perm.swap c d t
    | succ k =>
      have hk2 : k < t.length := Nat.lt_of_succ_lt_succ hk
      show List.Perm (t.get ⟨k, hk2⟩ :: d :: t.set k c) (c :: d :: t)
      exact (List.Perm.swap d (t.get ⟨k, hk2⟩) (t.set k c)).trans
        (((ih k hk2).cons d).trans (List.Perm.swap c d t))

theorem swapAt_perm {α : Type} (l : List α) (i j : Nat) : List.Perm (swapAt l i j) l := by
  unfold swapAt
  split
  · next a b hi hj =>
    rcases List.get?_eq_some.mp hi with ⟨hil, ha⟩
    rcases List.get?_eq_some.mp hj with ⟨hjl, hb⟩
    by_cases hij : i = j
    · subst hij
      rw [List.set_set, ← ha, set_get_self l i hil]
    · have hjl2 : j < (l.set i b).length := by simpa using hjl
      have hmj : (l.set i b).get ⟨j, hjl2⟩ = b := by
        simpa [List.getElem_set_ne hij] using hb
      have h1 := get_cons_set_perm (l.set i b) j hjl2 a
      rw [hmj] at h1
      have h2 := get_cons_set_perm l i hil b
      rw [ha] at h2
      exact (h1.trans h2).cons_inv
  · exact List.Perm.refl l

theorem shuffleGo_perm {α : Type} (g : Nat → Nat) :
    ∀ (i c : Nat) (l : List α), List.Perm (shuffleGo g c i l).1 l := by
  intro i
  induction i with
  | zero => intro c l; exact List.Perm.refl l
  | succ k ih =>
    intro c l
    exact (ih (c + 1) (swapAt l (k + 1) (g c % (k + 2)))).trans
      (swapAt_perm l (k + 1) (g c % (k + 2)))

theorem pyShuffle_perm {α : Type} (g : Nat → Nat) (c : Nat) (l : List α) :
    List.Perm (pyShuffle g c l).1 l :=
  shuffleGo_perm g (l.length - 1) c l

theorem genGridGo_spec (g : Nat → Nat) (count : Nat) :
    ∀ (fuel c : Nat) (grid : List String) (res : List String × Nat),
      grid.Nodup → grid.length ≤ count →
      genGridGo g c fuel count grid = some res →
      res.1.length = count ∧ res.1.Nodup ∧ ∀ w ∈ grid, w ∈ res.1 := by
  intro fuel
  induction fuel with
  | zero =>
    intro c grid res hnd hle h
    unfold genGridGo at h
    split at h
    · next hge =>
      cases Option.some_inj.mp h
      exact ⟨Nat.le_antisymm hle hge, hnd, fun w hw => hw⟩
    · exact absurd h (by simp)
  | succ f ih =>
    intro c grid res hnd hle h
    unfold genGridGo at h
    split at h
    · next hge =>
      cases Option.some_inj.mp h
      exact ⟨Nat.le_antisymm hle hge, hnd, fun w hw => hw⟩
    · next hlt =>
      have hlt2 : grid.length < count := Nat.lt_of_not_le (fun hc => hlt (by simpa using hc))
      dsimp only at h
      split at h
      · exact ih _ _ _ hnd hle h
      · next hmem =>
        have hnotmem : FILLER_WORDS.getD (g c % FILLER_WORDS.length) "" ∉ grid := by
          intro hin
          rw [List.contains_eq_any_beq] at hmem
          simp only [Bool.not_eq_true, List.any_eq_false, beq_eq_false_iff_ne] at hmem
          exact hmem _ hin rfl
        have hnd2 : (grid ++ [FILLER_WORDS.getD (g c % FILLER_WORDS.length) ""]).Nodup := by
          rw [List.nodup_append]
          exact ⟨hnd, List.nodup_singleton _,
            fun a ha hb => hnotmem (List.mem_singleton.mp hb ▸ ha)⟩
        have hle2 : (grid ++ [FILLER_WORDS.getD (g c % FILLER_WORDS.length) ""]).length ≤ count := by
          simpa using hlt2
        rcases ih _ _ _ hnd2 hle2 h with ⟨h1, h2, h3⟩
        exact ⟨h1, h2, fun w hw => h3 w (List.mem_append_left _ hw)⟩

/-- C6: for at most 4 pairwise-distinct outlier words and any state of the
random stream, a successfully generated grid holds exactly 16 pairwise
distinct words including every outlier, and the board layout built from it is
exactly 4 rows of 4 words. -/
theorem puzzle_grid_spec (g : Nat → Nat) (c fuel : Nat) (outliers : List String)
    (res : List String × Nat) (hnd : outliers.Nodup) (hlen : outliers.length ≤ 4)
    (h : generate_grid g c fuel outliers 16 = some res) :
    res.1.length = 16 ∧ res.1.Nodup ∧ (∀ w ∈ outliers, w ∈ res.1) ∧
      (boardRows res.1).length = 4 ∧ ∀ row ∈ boardRows res.1, row.length = 4 := by
  unfold generate_grid at h
  rcases hg : genGridGo g c fuel 16 outliers with _ | gc <;> rw [hg] at h
  · exact absurd h (by simp)
  · rcases genGridGo_spec g 16 fuel c outliers gc hnd (by omega) hg with ⟨h1, h2, h3⟩
    cases Option.some_inj.mp h
    have hperm := pyShuffle_perm g gc.2 gc.1
    have hlen16 : (pyShuffle g gc.2 gc.1).1.length = 16 := hperm.length_eq.trans h1
    refine ⟨hlen16, hperm.nodup_iff.mpr h2, fun w hw => hperm.mem_iff.mpr (h3 w hw), rfl, ?_⟩
    intro row hrow
    unfold boardRows at hrow
    simp only [List.mem_map] at hrow
    rcases hrow with ⟨i, hi, rfl⟩
    rw [List.length_take, List.length_drop, hlen16]
    simp only [List.mem_cons, List.not_mem_nil, or_false] at hi
    rcases hi with rfl | rfl | rfl | rfl <;> decide

/-- Witness for `puzzle_grid_spec` at four concrete outliers and the
identity stream. -/
theorem puzzle_grid_spec_witness :
    c6grid.length = 16 ∧ c6grid.Nodup ∧
      (∀ w ∈ ["AAA", "BBB", "CCC", "DDD"], w ∈ c6grid) ∧
      (boardRows c6grid).length = 4 ∧ ∀ row ∈ boardRows c6grid, row.length = 4 :=
  puzzle_grid_spec (fun n => n) 0 30 ["AAA", "BBB", "CCC", "DDD"] (c6grid, 27)
    (by decide) (by decide) rfl

theorem runLines_cons (pk : String) (st : PState) (l : String) (ls : List String) :
    runLines pk st (l :: ls) =
      match parseStep pk st l with
      | none => none
      | some st1 => runLines pk st1 ls := rfl

theorem runLines_cons_some (pk : String) (st : PState) (l : String) (ls : List String)
    (st1 : PState) (h : parseStep pk st l = some st1) :
    runLines pk st (l :: ls) = runLines pk st1 ls := by
  rw [runLines_cons, h]

theorem runLines_cons_none (pk : String) (st : PState) (l : String) (ls : List String)
    (h : parseStep pk st l = none) : runLines pk st (l :: ls) = none := by
  rw [runLines_cons, h]

theorem runLines_append (pk : String) :
    ∀ (xs ys : List String) (st : PState),
      runLines pk st (xs ++ ys) =
        match runLines pk st xs with
        | none => none
        | some st1 => runLines pk st1 ys := by
  intro xs
  induction xs with
  | nil => intro ys st; rfl
  | cons x xs ih =>
    intro ys st
    rw [List.cons_append]
    cases hx : parseStep pk st x with
    | none => rw [runLines_cons_none pk st x (xs ++ ys) hx, runLines_cons_none pk st x xs hx]
    | some st1 =>
      rw [runLines_cons_some pk st x (xs ++ ys) st1 hx,
        runLines_cons_some pk st x xs st1 hx]
      exact ih ys st1

theorem subchapter_line_facts (x : String) (h : startsWithS "Subchapter" x = true) :
    startsWithS "PUZZLE" x = false ∧ startsWithS "Bridge Text:" x = false ∧
      x ≠ "[DECISION POINT]" ∧ x ≠ "$$DECISION POINT$$" ∧ x ≠ "" := by
  unfold startsWithS at h ⊢
  cases hx : x.toList with
  | nil => rw [hx] at h; exact absurd h (by decide)
  | cons a as =>
    rw [hx] at h
    have ha : a = 'S' := by
      rw [show "Subchapter".toList = 'S' :: "ubchapter".toList from rfl] at h
      simp only [List.isPrefixOf, Bool.and_eq_true, beq_iff_eq] at h
      exact h.1.symm
    subst ha
    refine ⟨?_, ?_, ?_, ?_, ?_⟩
    · rw [show "PUZZLE".toList = 'P' :: "UZZLE".toList from rfl]
      simp [List.isPrefixOf]
    · rw [show "Bridge Text:".toList = 'B' :: "ridge Text:".toList from rfl]
      simp [List.isPrefixOf]
    · intro e
      rw [e, show "[DECISION POINT]".toList = '[' :: "DECISION POINT]".toList from rfl] at hx
      exact absurd hx (by simp)
    · intro e
      rw [e, show "$$DECISION POINT$$".toList = '$' :: "$DECISION POINT$$".toList from rfl] at hx
      exact absurd hx (by simp)
    · intro e
      rw [e, show "".toList = ([] : List Char) from rfl] at hx
      exact absurd hx (by simp)

theorem bodyStep (pk : String) (n : Nat) (acc : List Subchapter) (st : PState) (l : String)
    (hst : BodyInv n acc st) (hl : bodyOK l) :
    ∃ st1, parseStep pk st l = some st1 ∧ BodyInv n acc st1 := by
  obtain ⟨hch, hsubs, hds, s, hcs, hdec⟩ := hst
  obtain ⟨hsw, hm1, hm2⟩ := hl
  unfold parseStep
  dsimp only
  by_cases h0 : pyStripS l = ""
  · rw [if_pos h0]
    exact ⟨st, rfl, hch, hsubs, hds, s, hcs, hdec⟩
  · rw [if_neg h0]
    cases hprev : extract_previously_block (pyStripS l) with
    | some f =>
      exact ⟨_, rfl, hch, hsubs, hds, s, hcs, hdec⟩
    | none =>
      rw [if_neg (by rw [hch]; simp)]
      by_cases hP : startsWithS "PUZZLE" (pyStripS l) = true
      · rw [if_pos hP]
        exact ⟨st, rfl, hch, hsubs, hds, s, hcs, hdec⟩
      · rw [if_neg hP]
        by_cases hB : startsWithS "Bridge Text:" (pyStripS l) = true
        · rw [if_pos hB]
          exact ⟨_, rfl, hch, hsubs, hds, s, hcs, hdec⟩
        · rw [if_neg hB]
          rw [if_neg (show ¬startsWithS "Subchapter" (pyStripS l) = true by simp [hsw])]
          rw [if_neg (show ¬(pyStripS l = "[DECISION POINT]" ∨
            pyStripS l = "$$DECISION POINT$$") by simp [hm1, hm2])]
          rw [hds, hcs]
          exact ⟨_, rfl, hch, hsubs, rfl, _, rfl, hdec⟩

theorem bodyRun (pk : String) (n : Nat) (acc : List Subchapter) :
    ∀ (ls : List String) (st : PState), BodyInv n acc st → (∀ l ∈ ls, bodyOK l) →
      ∃ st1, runLines pk st ls = some st1 ∧ BodyInv n acc st1 := by
  intro ls
  induction ls with
  | nil => intro st hst _; exact ⟨st, rfl, hst⟩
  | cons l rest ih =>
    intro st hst hOK
    obtain ⟨st1, hstep, hinv⟩ := bodyStep pk n acc st l hst (hOK l (List.mem_cons_self _ _))
    obtain ⟨st2, hrun, hinv2⟩ := ih st1 hinv (fun x hx => hOK x (List.mem_cons_of_mem _ hx))
    exact ⟨st2, (runLines_cons_some pk st l rest st1 hstep).trans hrun, hinv2⟩

theorem subHeaderStep (pk : String) (st : PState) (l : String) (n cc ii : Nat)
    (hch : st.chapter_number = some n)
    (hprev : extract_previously_block (pyStripS l) = none)
    (hsw : startsWithS "Subchapter" (pyStripS l) = true)
    (hsh : subHeader (pyStripS l) = some (cc, ii)) :
    ∃ s1, parseStep pk st l = some
        { st with
          subchapters := closeSub st,
          current_sub := some s1,
          current_bridge := none,
          pending_previously := if truthyStr st.pending_previously then none
            else st.pending_previously } ∧
      s1.decision = none ∧ s1.chapter = cc ∧ s1.index = ii ∧
      s1.bridge_text = st.current_bridge := by
  obtain ⟨hP, hB, hm1, hm2, h0⟩ := subchapter_line_facts _ hsw
  unfold parseStep
  dsimp only
  rw [if_neg h0, hprev]
  rw [if_neg (by rw [hch]; simp)]
  rw [if_neg (by rw [hP]; simp), if_neg (by rw [hB]; simp), if_pos hsw, hsh]
  exact ⟨_, rfl, rfl, rfl, rfl, rfl⟩

theorem decisionMarkerStep (pk : String) (st : PState) (n : Nat)
    (hch : st.chapter_number = some n) :
    parseStep pk st "[DECISION POINT]" = some
      { st with
        subchapters := closeSub st,
        current_sub := none,
        decision_section := some {},
        current_option := none } := by
  unfold parseStep
  dsimp only
  rw [if_neg (by decide)]
  rw [show extract_previously_block (pyStripS "[DECISION POINT]") = none from rfl]
  rw [if_neg (by rw [hch]; simp)]
  rw [if_neg (by decide), if_neg (by decide), if_neg (by decide)]
  rw [if_pos (Or.inl (by decide))]

theorem tailStep (pk : String) (n : Nat) (s1 s2 : Subchapter) (st : PState) (l : String)
    (st1 : PState) (hst : TailInv n s1 s2 st) (hl : tailOK l)
    (h : parseStep pk st l = some st1) : TailInv n s1 s2 st1 := by
  obtain ⟨hch, hsubs, hcs, hds⟩ := hst
  obtain ⟨d, hd⟩ := Option.isSome_iff_exists.mp hds
  have hsw : startsWithS "Subchapter" (pyStripS l) = false := hl
  unfold parseStep at h
  dsimp only at h
  by_cases h0 : pyStripS l = ""
  · rw [if_pos h0] at h
    cases Option.some_inj.mp h
    exact ⟨hch, hsubs, hcs, hds⟩
  · rw [if_neg h0] at h
    cases hprev : extract_previously_block (pyStripS l) with
    | some f =>
      rw [hprev] at h
      dsimp only at h
      cases Option.some_inj.mp h
      exact ⟨hch, hsubs, hcs, hds⟩
    | none =>
      rw [hprev] at h
      dsimp only at h
      rw [if_neg (by rw [hch]; simp)] at h
      by_cases hP : startsWithS "PUZZLE" (pyStripS l) = true
      · rw [if_pos hP] at h
        cases Option.some_inj.mp h
        exact ⟨hch, hsubs, hcs, hds⟩
      · rw [if_neg hP] at h
        by_cases hB : startsWithS "Bridge Text:" (pyStripS l) = true
        · rw [if_pos hB] at h
          cases Option.some_inj.mp h
          exact ⟨hch, hsubs, hcs, hds⟩
        · rw [if_neg hB] at h
          rw [if_neg (show ¬startsWithS "Subchapter" (pyStripS l) = true by simp [hsw])] at h
          by_cases hDM : pyStripS l = "[DECISION POINT]" ∨ pyStripS l = "$$DECISION POINT$$"
          · rw [if_pos hDM] at h
            cases Option.some_inj.mp h
            refine ⟨hch, ?_, rfl, rfl⟩
            unfold closeSub
            rw [hcs]
            exact hsubs
          · rw [if_neg hDM, hd] at h
            dsimp only at h
            by_cases hO : startsWithS "OPTION" (pyStripS l) = true ∨
              startsWithS "$$OPTION" (pyStripS l) = true
            · rw [if_pos hO] at h
              cases hoh : optionHeader (pyStripS l) with
              | none => rw [hoh] at h; exact absurd h (by simp)
              | some kt =>
                rw [hoh] at h
                cases hco : st.current_option <;> rw [hco] at h <;>
                  cases Option.some_inj.mp h <;> exact ⟨hch, hsubs, hcs, rfl⟩
            · rw [if_neg hO] at h
              by_cases hE : startsWithS "END CHAPTER" (pyStripS l) = true ∨
                startsWithS "[PATH" (pyStripS l) = true
              · rw [if_pos hE] at h
                cases Option.some_inj.mp h
                exact ⟨hch, hsubs, hcs, hds⟩
              · rw [if_neg hE] at h
                cases hco : st.current_option with
                | none =>
                  rw [hco] at h
                  cases Option.some_inj.mp h
                  exact ⟨hch, hsubs, hcs, rfl⟩
                | some opt =>
                  rw [hco] at h
                  dsimp only at h
                  cases hal : applyOptionLine opt (pyStripS l) with
                  | none => rw [hal] at h; exact absurd h (by simp)
                  | some o1 =>
                    rw [hal] at h
                    cases Option.some_inj.mp h
                    exact ⟨hch, hsubs, hcs, rfl⟩

theorem tailRun (pk : String) (n : Nat) (s1 s2 : Subchapter) :
    ∀ (ls : List String) (st st1 : PState), TailInv n s1 s2 st → (∀ l ∈ ls, tailOK l) →
      runLines pk st ls = some st1 → TailInv n s1 s2 st1 := by
  intro ls
  induction ls with
  | nil =>
    intro st st1 hst _ h
    cases Option.some_inj.mp h
    exact hst
  | cons l rest ih =>
    intro st st1 hst hOK h
    cases hx : parseStep pk st l with
    | none => rw [runLines_cons_none pk st l rest hx] at h; exact absurd h (by simp)
    | some st2 =>
      rw [runLines_cons_some pk st l rest st2 hx] at h
      exact ih st2 st1 (tailStep pk n s1 s2 st l st2 hst (hOK l (List.mem_cons_self _ _)) hx)
        (fun x hxm => hOK x (List.mem_cons_of_mem _ hxm)) h

theorem buildBoard_decision (g : Nat → Nat) (fuel n c : Nat) (s : Subchapter)
    (r : Subchapter × Nat) (h : buildBoard g fuel n c s = some r) :
    r.1.decision = s.decision := by
  unfold buildBoard at h
  dsimp only at h
  split at h
  · exact absurd h (by simp)
  · split at h
    · exact absurd h (by simp)
    · cases Option.some_inj.mp h
      show (if s.chapter ≠ n then _ else s).decision = s.decision
      split <;> rfl

theorem annotate_two (g : Nat → Nat) (fuel n c : Nat) (x y : Subchapter)
    (out : List Subchapter × Nat) (h : annotate g fuel n c [x, y] = some out) :
    ∃ a b, out.1 = [a, b] ∧ a.decision = x.decision ∧ b.decision = y.decision := by
  unfold annotate at h
  cases hbx : buildBoard g fuel n c x with
  | none => rw [hbx] at h; exact absurd h (by simp)
  | some xc =>
    rw [hbx] at h
    dsimp only at h
    cases han : annotate g fuel n xc.2 [y] with
    | none => rw [han] at h; exact absurd h (by simp)
    | some lc =>
      rw [han] at h
      unfold annotate at han
      cases hby : buildBoard g fuel n xc.2 y with
      | none => rw [hby] at han; exact absurd han (by simp)
      | some yc =>
        rw [hby] at han
        dsimp only at han
        rw [show annotate g fuel n yc.2 [] = some ([], yc.2) from rfl] at han
        cases Option.some_inj.mp han
        cases Option.some_inj.mp h
        exact ⟨xc.1, yc.1, rfl, buildBoard_decision g fuel n c x xc hbx,
          buildBoard_decision g fuel n xc.2 y yc hby⟩

theorem entry_decision_none {s : Subchapter} (h : s.decision = none) :
    dictGet "decision" s.to_entry = none := by
  unfold Subchapter.to_entry
  rw [h]
  rcases s.previously with _ | p <;> rcases s.board with _ | b <;>
    simp [dictGet] <;> split_ifs <;> simp [dictGet]

theorem entry_decision_some {s : Subchapter} {d : List (String × PyVal)}
    (h : s.decision = some d) (hne : d.isEmpty = false) :
    dictGet "decision" s.to_entry = some (PyVal.dict d) := by
  unfold Subchapter.to_entry
  rw [h]
  dsimp only
  rw [hne]
  rcases s.previously with _ | p <;> rcases s.board with _ | b <;> simp [dictGet]

theorem closeSub_none {st : PState} (h : st.current_sub = none) :
    closeSub st = st.subchapters := by
  unfold closeSub
  rw [h]

theorem flushOption_fields (st : PState) :
    (flushOption st).chapter_number = st.chapter_number ∧
      (flushOption st).subchapters = st.subchapters ∧
      (flushOption st).current_sub = st.current_sub := by
  unfold flushOption
  rcases st.current_option with _ | o <;> rcases st.decision_section with _ | d <;>
    exact ⟨rfl, rfl, rfl⟩

theorem flushOption_ds (st : PState) (h : st.decision_section.isSome = true) :
    ∃ d, (flushOption st).decision_section = some d := by
  obtain ⟨d0, hd0⟩ := Option.isSome_iff_exists.mp h
  unfold flushOption
  rcases hco : st.current_option with _ | o <;> rw [hd0]
  · exact ⟨d0, rfl⟩
  · exact ⟨_, rfl⟩

theorem finalize_attach (g : Nat → Nat) (fuel c n : Nat) (st : PState)
    (s1 s2 : Subchapter) (subs : List Subchapter)
    (hch : st.chapter_number = some n) (hsubs : st.subchapters = [s1, s2])
    (hcs : st.current_sub = none) (hds : st.decision_section.isSome = true)
    (hdec1 : s1.decision = none)
    (hp : finalizeParse g fuel c st = some subs) :
    ∃ a b, subs = [a, b] ∧ a.decision = none ∧ b.decision.isSome = true ∧
      dictGet "decision" a.to_entry = none ∧
      (dictGet "decision" b.to_entry).isSome = true := by
  obtain ⟨d1, hd1⟩ := flushOption_ds st hds
  obtain ⟨hf1, hf2, hf3⟩ := flushOption_fields st
  unfold finalizeParse at hp
  dsimp only at hp
  rw [closeSub_none (hf3.trans hcs), hf2.trans hsubs, hd1, hf1.trans hch] at hp
  dsimp only at hp
  rw [show attachToLast [s1, s2] (encodeDecision d1) =
    [s1, {s2 with decision := some (encodeDecision d1)}] from rfl] at hp
  cases hann : annotate g fuel n c [s1, {s2 with decision := some (encodeDecision d1)}] with
  | none => rw [hann] at hp; exact absurd hp (by simp)
  | some out =>
    rw [hann] at hp
    dsimp only at hp
    cases Option.some_inj.mp hp
    obtain ⟨a, b, hout, ha, hb⟩ :=
      annotate_two g fuel n c s1 {s2 with decision := some (encodeDecision d1)} out hann
    have hbd : b.decision = some (encodeDecision d1) := hb
    refine ⟨a, b, hout, ha.trans hdec1, by rw [hbd]; rfl,
      entry_decision_none (ha.trans hdec1), ?_⟩
    rw [entry_decision_some hbd rfl]
    rfl

/-- C5: in a document made of a chapter marker, two subchapter headers with
arbitrary narrative bodies, and one trailing decision block, a successful
parse attaches the decision exclusively to the second (last) subchapter: the
first parsed subchapter carries no decision and its serialized entry has no
`decision` key, while the second carries it. -/
theorem decision_attaches_to_last_subchapter
    (t1 t2 : String) (body1 body2 tail : List String)
    (g : Nat → Nat) (c fuel : Nat) (pk : String) (subs : List Subchapter)
    (h1p : extract_previously_block (pyStripS ("Subchapter 3.1 - " ++ t1)) = none)
    (h1s : startsWithS "Subchapter" (pyStripS ("Subchapter 3.1 - " ++ t1)) = true)
    (h1h : subHeader (pyStripS ("Subchapter 3.1 - " ++ t1)) = some (3, 1))
    (h2p : extract_previously_block (pyStripS ("Subchapter 3.2 - " ++ t2)) = none)
    (h2s : startsWithS "Subchapter" (pyStripS ("Subchapter 3.2 - " ++ t2)) = true)
    (h2h : subHeader (pyStripS ("Subchapter 3.2 - " ++ t2)) = some (3, 2))
    (hb1 : ∀ l ∈ body1, bodyOK l) (hb2 : ∀ l ∈ body2, bodyOK l)
    (ht : ∀ l ∈ tail, tailOK l)
    (hp : parse_docx_file g c fuel pk
      ("Chapter 3" :: ("Subchapter 3.1 - " ++ t1) ::
        (body1 ++ ("Subchapter 3.2 - " ++ t2) :: (body2 ++ "[DECISION POINT]" :: tail))) =
      some subs) :
    ∃ a b, subs = [a, b] ∧ a.decision = none ∧ b.decision.isSome = true ∧
      dictGet "decision" a.to_entry = none ∧
      (dictGet "decision" b.to_entry).isSome = true := by
  obtain ⟨sB, hBeq, hBdec, _, _, _⟩ :=
    subHeaderStep pk { chapter_number := some 3 } ("Subchapter 3.1 - " ++ t1) 3 3 1 rfl
      h1p h1s h1h
  have hBeq2 : parseStep pk { chapter_number := some 3 } ("Subchapter 3.1 - " ++ t1) =
      some { chapter_number := some 3, current_sub := some sB } := hBeq
  have hBinv : BodyInv 3 [] { chapter_number := some 3, current_sub := some sB } :=
    ⟨rfl, rfl, rfl, sB, rfl, hBdec⟩
  obtain ⟨stC, hCrun, hCinv⟩ := bodyRun pk 3 [] body1 _ hBinv hb1
  obtain ⟨hC1, hC2, hC3, sC, hC4, hC5⟩ := hCinv
  obtain ⟨sD, hDeq, hDdec, _, _, _⟩ :=
    subHeaderStep pk stC ("Subchapter 3.2 - " ++ t2) 3 3 2 hC1 h2p h2s h2h
  have hcloseC : closeSub stC = [sC] := by
    unfold closeSub
    rw [hC4, hC2]
    rfl
  have hDinv : BodyInv 3 [sC]
      { stC with
        subchapters := closeSub stC,
        current_sub := some sD,
        current_bridge := none,
        pending_previously := if truthyStr stC.pending_previously then none
          else stC.pending_previously } :=
    ⟨hC1, hcloseC, hC3, sD, rfl, hDdec⟩
  obtain ⟨stE, hErun, hEinv⟩ := bodyRun pk 3 [sC] body2 _ hDinv hb2
  obtain ⟨hE1, hE2, hE3, sE, hE4, hE5⟩ := hEinv
  have hcloseE : closeSub stE = [sC, sE] := by
    unfold closeSub
    rw [hE4, hE2]
    rfl
  have hFeq := decisionMarkerStep pk stE 3 hE1
  have hFinv : TailInv 3 sC sE
      { stE with
        subchapters := closeSub stE,
        current_sub := none,
        decision_section := some {},
        current_option := none } := ⟨hE1, hcloseE, rfl, rfl⟩
  have r1 : runLines pk {} ("Chapter 3" :: ("Subchapter 3.1 - " ++ t1) ::
      (body1 ++ ("Subchapter 3.2 - " ++ t2) :: (body2 ++ "[DECISION POINT]" :: tail))) =
      runLines pk { chapter_number := some 3, current_sub := some sB }
        (body1 ++ ("Subchapter 3.2 - " ++ t2) :: (body2 ++ "[DECISION POINT]" :: tail)) := by
    rw [runLines_cons_some pk {} "Chapter 3" _ { chapter_number := some 3 } rfl]
    exact runLines_cons_some pk { chapter_number := some 3 } _ _ _ hBeq2
  have r2 : runLines pk { chapter_number := some 3, current_sub := some sB }
      (body1 ++ ("Subchapter 3.2 - " ++ t2) :: (body2 ++ "[DECISION POINT]" :: tail)) =
      runLines pk stC
        (("Subchapter 3.2 - " ++ t2) :: (body2 ++ "[DECISION POINT]" :: tail)) := by
    rw [runLines_append pk body1 _ _, hCrun]
  have r3 : runLines pk stC
      (("Subchapter 3.2 - " ++ t2) :: (body2 ++ "[DECISION POINT]" :: tail)) =
      runLines pk
        { stC with
          subchapters := closeSub stC,
          current_sub := some sD,
          current_bridge := none,
          pending_previously := if truthyStr stC.pending_previously then none
            else stC.pending_previously }
        (body2 ++ "[DECISION POINT]" :: tail) :=
    runLines_cons_some pk stC _ _ _ hDeq
  have r4 : runLines pk
      { stC with
        subchapters := closeSub stC,
        current_sub := some sD,
        current_bridge := none,
        pending_previously := if truthyStr stC.pending_previously then none
          else stC.pending_previously }
      (body2 ++ "[DECISION POINT]" :: tail) =
      runLines pk stE ("[DECISION POINT]" :: tail) := by
    rw [runLines_append pk body2 _ _, hErun]
  have r5 : runLines pk stE ("[DECISION POINT]" :: tail) =
      runLines pk
        { stE with
          subchapters := closeSub stE,
          current_sub := none,
          decision_section := some {},
          current_option := none } tail :=
    runLines_cons_some pk stE _ _ _ hFeq
  have hrun := (((r1.trans r2).trans r3).trans r4).trans r5
  unfold parse_docx_file at hp
  rw [hrun] at hp
  cases hstf : runLines pk
      { stE with
        subchapters := closeSub stE,
        current_sub := none,
        decision_section := some {},
        current_option := none } tail with
  | none => rw [hstf] at hp; exact absurd hp (by simp)
  | some stf =>
    rw [hstf] at hp
    dsimp only at hp
    obtain ⟨hg1, hg2, hg3, hg4⟩ := tailRun pk 3 sC sE tail _ stf hFinv ht hstf
    exact finalize_attach g fuel c 3 stf sC sE subs hg1 hg2 hg3 hg4 hC5 hp

/-- Witness for `decision_attaches_to_last_subchapter` on a concrete
two-subchapter document with one decision block. -/
theorem decision_attaches_to_last_subchapter_witness :
    ∃ a b, [c5sub1, c5sub2] = [a, b] ∧ a.decision = none ∧ b.decision.isSome = true ∧
      dictGet "decision" a.to_entry = none ∧
      (dictGet "decision" b.to_entry).isSome = true :=
  decision_attaches_to_last_subchapter "One" "Two" ["Alpha narrative."]
    ["Beta narrative."]
    ["Choose wisely.", "OPTION A: Go north", "Outcome: go to Chapter 4, Path FOO"]
    (fun n => n) 0 40 "ROOT" [c5sub1, c5sub2]
    rfl rfl rfl rfl rfl rfl
    (by decide) (by decide) (by decide)
    rfl

/-- C9: chapter 5, subchapter index 2 formats as "005B" and index 1 as
"005A"; any index outside {1, 2, 3} makes `case_number` raise (no letter
mapping in `CASE_LETTERS`), modelled as `none`. -/
theorem case_number_spec (s : Subchapter) :
    (s.chapter = 5 → s.index = 2 → s.case_number = some "005B") ∧
    (s.chapter = 5 → s.index = 1 → s.case_number = some "005A") ∧
    (s.index ≠ 1 → s.index ≠ 2 → s.index ≠ 3 → s.case_number = none) := by
  refine ⟨fun h1 h2 => ?_, fun h1 h2 => ?_, fun h1 h2 h3 => ?_⟩ <;>
    unfold Subchapter.case_number
  · rw [h1, h2]; decide
  · rw [h1, h2]; decide
  · have e1 : (s.index == 1) = false := by simpa using h1
    have e2 : (s.index == 2) = false := by simpa using h2
    have e3 : (s.index == 3) = false := by simpa using h3
    simp [CASE_LETTERS, List.lookup, e1, e2, e3]

/-- Witness for `case_number_spec` at concrete subchapters: chapter 5 with
indices 2, 1 and 4. -/
theorem case_number_spec_witness :
    Subchapter.case_number
        { chapter := 5, index := 2, path_key := "ROOT", title := "", bridge_text := none } =
      some "005B" ∧
    Subchapter.case_number
        { chapter := 5, index := 1, path_key := "ROOT", title := "", bridge_text := none } =
      some "005A" ∧
    Subchapter.case_number
        { chapter := 5, index := 4, path_key := "ROOT", title := "", bridge_text := none } =
      none :=
  ⟨(case_number_spec _).1 rfl rfl, (case_number_spec _).2.1 rfl rfl,
   (case_number_spec _).2.2 (by decide) (by decide) (by decide)⟩

/-- C1 counterexample: in `DecisionOption.to_dict` an absent optional field is
serialized as a present key with a null value, not omitted — here the
`consequence` key of an option with no consequence; likewise `bridgeText` in
`Subchapter.to_entry` is present (and null) even when the bridge text is
absent.  This refutes the claim that absent optional fields are omitted from
the serialized mapping entirely. -/
theorem to_dict_absent_field_is_null :
    dictGet "consequence" (DecisionOption.to_dict { key := "A", title := "T" }) =
      some PyVal.null ∧
    dictGet "bridgeText" (Subchapter.to_entry
        { chapter := 1, index := 1, path_key := "ROOT", title := "T", bridge_text := none }) =
      some PyVal.null :=
  ⟨rfl, rfl⟩

/-- C1 amended: in `DecisionOption.to_dict` every field is always present
(absent optionals as null), so in particular `nextChapter` and `nextPathKey`
are always both present; in `Subchapter.to_entry` only `decision`,
`previously` and `board` are omitted when absent (falsy), while the five base
keys — including a possibly-null `bridgeText` — are always present. -/
theorem serialization_key_presence :
    (∀ o : DecisionOption, o.to_dict.map Prod.fst =
      ["key", "title", "consequence", "focus", "stats", "outcome",
       "nextChapter", "nextPathKey", "details"]) ∧
    (∀ s : Subchapter,
      (s.to_entry.map Prod.fst).take 5 =
        ["chapter", "subchapter", "title", "bridgeText", "narrative"] ∧
      ("decision" ∈ s.to_entry.map Prod.fst ↔ truthyDict s.decision = true) ∧
      ("previously" ∈ s.to_entry.map Prod.fst ↔ truthyStr s.previously = true) ∧
      ("board" ∈ s.to_entry.map Prod.fst ↔ s.board.isSome = true)) := by
  constructor
  · intro o; rfl
  · intro s
    unfold Subchapter.to_entry truthyDict truthyStr
    rcases s.decision with _ | d <;> rcases s.previously with _ | p <;>
      rcases s.board with _ | b <;> simp_all

/-- C2 counterexample: on a line with a path fragment but no chapter number,
`extract_target` does not return `(None, None)`: the second component is the
sanitized fragment (here the string "FOO"), never `None`. -/
theorem extract_target_fragment_without_chapter :
    extract_target "Path FOO" = some (none, "FOO") ∧ ("FOO" : String) ≠ "ROOT" :=
  ⟨rfl, by decide⟩

/-- C2 amended: when no chapter number is found the first component is `None`
(but the second is always a proper string — the sanitized fragment); when a
chapter number is found and no path fragment is found, the result is
`(chapter, "ROOT")` (and more generally, whenever no fragment is found, the
second component is "ROOT" and no exception can occur). -/
theorem extract_target_spec (line : String) :
    (searchChapter line.toList = none →
      ∀ p, extract_target line = some p → p.1 = none) ∧
    (searchPathFragment line.toList = none →
      extract_target line = some (searchChapter line.toList, "ROOT")) := by
  simp only [String.toList]
  constructor
  · intro h p hp
    unfold extract_target at hp
    simp only [String.toList] at hp
    cases hs : sanitize_path_key (searchPathFragment line.data) with
    | none => rw [hs] at hp; exact absurd hp (by simp)
    | some k =>
      rw [hs] at hp
      have hpe := Option.some_inj.mp hp
      rw [← hpe]
      exact h
  · intro h
    unfold extract_target
    simp only [String.toList, h]
    rfl

/-- Witness for `extract_target_spec` on a line containing neither a chapter
number nor a path fragment. -/
theorem extract_target_spec_witness :
    extract_target "hello there" = some (none, "ROOT") :=
  (extract_target_spec "hello there").2 rfl

/-- C3: once an option's next target is set, no later content line of the
same option overwrites it (first match wins); and on the option lines of the
spec's example the resolved target is `(4, "FOO")`, with the later line
stored among the raw detail lines. -/
theorem option_target_first_match_wins :
    (∀ (o : DecisionOption) (l : String) (o1 : DecisionOption) (n : Nat),
      o.next_chapter = some n → applyOptionLine o l = some o1 →
      o1.next_chapter = some n ∧ o1.next_path_key = o.next_path_key) ∧
    ((applyOptionLine { key := "A", title := "T" } "Outcome: go to Chapter 4, Path FOO").bind
        (fun o => applyOptionLine o "Also mentions Chapter 9, Path BAR") =
      some { key := "A", title := "T", outcome := some "go to Chapter 4, Path FOO",
             next_chapter := some 4, next_path_key := some "FOO",
             raw_lines := ["Also mentions Chapter 9, Path BAR"] }) := by
  constructor
  · intro o l o1 n hn h
    unfold applyOptionLine at h
    split_ifs at h
    · cases Option.some_inj.mp h; exact ⟨hn, rfl⟩
    · cases Option.some_inj.mp h; exact ⟨hn, rfl⟩
    · cases Option.some_inj.mp h; exact ⟨hn, rfl⟩
    · rcases he : extract_target l with _ | ⟨ch, tp⟩ <;> rw [he] at h
      · exact absurd h (by simp)
      · dsimp only at h
        split_ifs at h with hc
        · exact absurd hc.2.2 (by simp [hn])
        · cases Option.some_inj.mp h; exact ⟨hn, rfl⟩
    · rcases he : extract_target l with _ | ⟨ch, tp⟩ <;> rw [he] at h
      · exact absurd h (by simp)
      · dsimp only at h
        split_ifs at h with hc
        · exact absurd hc.2.2 (by simp [hn])
        · cases Option.some_inj.mp h; exact ⟨hn, rfl⟩
  · rfl

/-- Witness for `option_target_first_match_wins` at a concrete option with an
already-resolved target and a later line that also matches a target pattern. -/
theorem option_target_first_match_wins_witness :
    (({ key := "A", title := "T", next_chapter := some 4, next_path_key := some "FOO",
        raw_lines := ["Also mentions Chapter 9, Path BAR"] } : DecisionOption).next_chapter =
      some 4) ∧
    (({ key := "A", title := "T", next_chapter := some 4, next_path_key := some "FOO",
        raw_lines := ["Also mentions Chapter 9, Path BAR"] } : DecisionOption).next_path_key =
      ({ key := "A", title := "T", next_chapter := some 4,
         next_path_key := some "FOO" } : DecisionOption).next_path_key) :=
  option_target_first_match_wins.1
    { key := "A", title := "T", next_chapter := some 4, next_path_key := some "FOO" }
    "Also mentions Chapter 9, Path BAR" _ 4 rfl rfl

/-- C4 counterexample: a document whose decision block is accumulated while
the subchapter result list stays empty parses successfully to the empty list
— a fatal error would be `none`, so the decision block is silently
discarded, not an error. -/
theorem parse_decision_only_doc_returns_empty :
    parse_docx_file (fun _ => 0) 0 0 "ROOT"
      ["Chapter 3", "[DECISION POINT]", "OPTION A: Test"] = some [] := rfl

/-- C4 amended: at end of parsing, an accumulated decision context with an
empty result list is silently dropped — no subchapter receives it and no
error is raised; the parse returns the empty list. -/
theorem finalize_discards_unattachable_decision (g : Nat → Nat) (fuel c n : Nat)
    (st : PState) (h1 : st.subchapters = []) (h2 : st.current_sub = none)
    (h3 : st.decision_section.isSome = true) (h4 : st.chapter_number = some n) :
    finalizeParse g fuel c st = some [] := by
  obtain ⟨d, hd⟩ := Option.isSome_iff_exists.mp h3
  cases hco : st.current_option <;>
    simp [finalizeParse, flushOption, closeSub, attachToLast, annotate, hco, hd, h1, h2, h4]

/-- Witness for `finalize_discards_unattachable_decision` at the loop state
reached by a decision-only document. -/
theorem finalize_discards_unattachable_decision_witness :
    finalizeParse (fun _ => 0) 0 0
      { chapter_number := some 3, decision_section := some {} } = some [] :=
  finalize_discards_unattachable_decision (fun _ => 0) 0 0 3 _ rfl rfl rfl rfl

/-- C7 counterexample: the theme summary of a board generated from the
2-character bridge text "Hi" is "Hi..." — the ellipsis marker is appended
even though nothing was truncated, refuting the claim that a bridge text of
100 characters or fewer is used unchanged. -/
theorem theme_summary_short_bridge_gets_ellipsis :
    (buildBoard (fun n => n) 40 1 0 hiSub).map (fun r => r.1.board.map Board.themeSummary) =
      some (some "Hi...") ∧ ("Hi..." : String) ≠ "Hi" :=
  ⟨rfl, by decide⟩

/-- C7 amended: the generated board's theme summary is the bridge text
truncated to 100 characters with the ellipsis marker appended whenever the
bridge text is truthy (regardless of its length), and the fixed placeholder
"Classified Intel" when there is no (or an empty) bridge text. -/
theorem theme_summary_spec (g : Nat → Nat) (fuel n c : Nat) (s : Subchapter)
    (r : Subchapter × Nat) (h : buildBoard g fuel n c s = some r) :
    ∃ b, r.1.board = some b ∧
      (∀ t, s.bridge_text = some t → t ≠ "" →
        b.themeSummary = (⟨t.toList.take 100⟩ : String) ++ "...") ∧
      ((s.bridge_text = none ∨ s.bridge_text = some "") →
        b.themeSummary = "Classified Intel") := by
  unfold buildBoard at h
  dsimp only at h
  split at h
  · exact absurd h (by simp)
  · split at h
    · exact absurd h (by simp)
    · cases Option.some_inj.mp h
      refine ⟨_, rfl, ?_, ?_⟩
      · intro t ht hne
        dsimp only
        split <;> simp [summaryOf, ht, hne]
      · intro ht
        dsimp only
        rcases ht with ht | ht <;> split <;> simp [summaryOf, ht]

/-- Witness for `theme_summary_spec` on the concrete "Hi" subchapter. -/
theorem theme_summary_spec_witness :
    ∃ b, hiSubResult.1.board = some b ∧
      (∀ t, hiSub.bridge_text = some t → t ≠ "" →
        b.themeSummary = (⟨t.toList.take 100⟩ : String) ++ "...") ∧
      ((hiSub.bridge_text = none ∨ hiSub.bridge_text = some "") →
        b.themeSummary = "Classified Intel") :=
  theme_summary_spec (fun n => n) 40 1 0 hiSub hiSubResult rfl

end StoryBuild
